import Mathlib

/-!
The scraping core of X-scraper (`src/server.js`)

A shallow embedding of the class `TwitterScraper` of `src/server.js`
(methods `scrapeUserTweets` and `scrapeUserProfile`) and the theorems about
its claims C1 to C10.

Conventions of the embedding.

* JavaScript strings are lists of characters (`Str`).
* JavaScript numbers are IEEE-754 binary64 values.  Only non-negative values,
  `NaN` and `+Infinity` can arise in the two number parsers, so `JSNumber`
  holds exactly those; a finite value is stored as its exact multiple of
  `2^-1074`, the smallest positive binary64 value.
* The browser page is an oracle (`Page`): what each `goto` attempt does, whether
  the two selector waits resolve, the HTML content, and the post elements that
  are rendered at each extraction pass.
* Every effect of `scrapeUserTweets` on the page (goto, wait, extraction pass,
  scroll, sleep) is appended to a trace, so that statements about how many
  scrolls or waits happen are statements about the returned trace.
-/

set_option maxRecDepth 100000
set_option exponentiation.threshold 4096

namespace XScraper

/-! ## Strings -/

/-- JavaScript string, as the list of its characters. -/
abbrev Str := List Char

/-- The method `String.prototype.includes` : does `pat` occur in `s` ? -/
def includes : Str → Str → Bool
  | [], pat => pat.isEmpty
  | c :: cs, pat => pat.isPrefixOf (c :: cs) || includes cs pat

/-- The text before the first occurrence of the non-empty separator `sep`, the
whole text when `sep` does not occur: element `[0]` of `s.split(sep)`. -/
def splitHead (sep : Str) : Str → Str
  | [] => []
  | c :: cs => if sep.isPrefixOf (c :: cs) then [] else c :: splitHead sep cs

/-- The text after the first occurrence of the separator `sep`, `none` when
`sep` does not occur. -/
def afterFirst (sep : Str) : Str → Option Str
  | [] => none
  | c :: cs => if sep.isPrefixOf (c :: cs) then some ((c :: cs).drop sep.length)
      else afterFirst sep cs

/-- Element `[1]` of `s.split(sep)` (`undefined` is `none`): the text between
the first and the second occurrence of `sep`. -/
def splitSecond (sep : Str) (s : Str) : Option Str :=
  (afterFirst sep s).map (splitHead sep)

/-- White space of ECMAScript (`WhiteSpace` and `LineTerminator`): what
`String.prototype.trim` strips and what `\s` matches. -/
def isJsSpace (c : Char) : Bool :=
  let n := c.toNat
  (9 ≤ n && n ≤ 13) || n = 32 || n = 160 || n = 5760 || (8192 ≤ n && n ≤ 8202)
    || n = 8232 || n = 8233 || n = 8239 || n = 8287 || n = 12288 || n = 65279

/-- The method `String.prototype.trim`. -/
def trim (s : Str) : Str :=
  ((s.dropWhile isJsSpace).reverse.dropWhile isJsSpace).reverse

/-- The class `\d` of a JavaScript regular expression: ASCII digits only. -/
def isDigit (c : Char) : Bool := 48 ≤ c.toNat && c.toNat ≤ 57

/-- The call `s.replace(/,/g, '')` : every comma removed. -/
def removeCommas (s : Str) : Str := s.filter (fun c => c != ',')

/-- The call `s.replace(c, '')` with a one-character string pattern: only the
first occurrence of `c` is removed. -/
def removeFirst (c : Char) (s : Str) : Str := s.erase c

/-- The lower-case mapping of one character by `String.prototype.toLowerCase`,
as far as ASCII is concerned: the letters A to Z, and the two non-ASCII
characters whose lower case holds an ASCII letter, U+212A (Kelvin sign, to
`k`) and U+0130 (dotted capital I, to `i` and the combining dot U+0307). The
other case mappings of Unicode send a non-ASCII character to non-ASCII
characters and are left out: they change no test `includes` for an ASCII
keyword and nothing on the strings of the two count parsers. -/
def lowerChar (c : Char) : List Char :=
  if c.toNat = 8490 then ['k']
  else if c.toNat = 304 then ['i', Char.ofNat 775]
  else [c.toLower]

/-- The method `String.prototype.toLowerCase` (see `lowerChar`). -/
def toLowerCase (s : Str) : Str :=
  s.flatMap lowerChar

/-- Truthiness of a value that is a string or `undefined`/`null`: true exactly
for a non-empty string. -/
def truthy : Option Str → Bool
  | some (_ :: _) => true
  | _ => false

/-! ## Numbers (IEEE-754 binary64, non-negative part) -/

/-- The number of units `2^-1074` in `1.0`. -/
def unitScale : Nat := 2 ^ 1074

/-- A JavaScript number that a count parser can produce: `NaN`, `+Infinity`, or
the finite non-negative value `units * 2^-1074`. -/
inductive JSNumber where
  | nan
  | infinity
  | finite (units : Nat)
  deriving DecidableEq, Repr

/-- The JavaScript number of a natural number (exact below `2^53`). -/
def JSNumber.ofNat (k : Nat) : JSNumber := .finite (k * unitScale)

/-- Rounding of the fraction `a / b` to the nearest integer, ties to even. -/
def roundHalfEven (a b : Nat) : Nat :=
  let q := a / b
  let r := a % b
  if 2 * r < b then q
  else if b < 2 * r then q + 1
  else if q % 2 = 0 then q else q + 1

/-- Helper of `floorLog2`, by halving at most `fuel` times. -/
def floorLog2Aux : Nat → Nat → Nat
  | 0, _ => 0
  | fuel + 1, n => if n < 2 then 0 else floorLog2Aux fuel (n / 2) + 1

/-- The position of the leading bit of `n` (0 for `n < 2`). -/
def floorLog2 (n : Nat) : Nat := floorLog2Aux n n

/-- The binary exponent of the last place of the binary64 values of the
binade of `t` units: values below `2^53` units (subnormals and the first
normal binade) are spaced by one unit, and the spacing doubles with every
further binade so that 53 significant bits are kept. -/
def ulpShift (t : Nat) : Nat := if t < 2 ^ 53 then 0 else floorLog2 t - 52

/-- The binary64 value nearest to the rational `num / den` (round to nearest,
ties to even; overflow to `+Infinity` from `2^1024` on): the rounding of
IEEE-754 arithmetic, and of the decimal-to-binary conversion of `parseFloat`
in V8. -/
def roundToDouble (num den : Nat) : JSNumber :=
  let a := num * unitScale
  let s := ulpShift (a / den)
  let n := roundHalfEven a (den * 2 ^ s) * 2 ^ s
  if n < 2 ^ 1024 * unitScale then .finite n else .infinity

/-- The operator `*` of JavaScript on the non-negative numbers. -/
def JSNumber.mul : JSNumber → JSNumber → JSNumber
  | .nan, _ => .nan
  | _, .nan => .nan
  | .infinity, .finite 0 => .nan
  | .finite 0, .infinity => .nan
  | .infinity, _ => .infinity
  | _, .infinity => .infinity
  | .finite a, .finite b => roundToDouble (a * b) (unitScale * unitScale)

/-- The function `Math.floor` on the non-negative numbers. -/
def JSNumber.floor : JSNumber → JSNumber
  | .finite n => .finite (n / unitScale * unitScale)
  | x => x

/-- The value of a string of decimal digits. -/
def digitsToNat (ds : Str) : Nat :=
  ds.foldl (fun acc c => 10 * acc + (c.toNat - 48)) 0

/-- The function `parseFloat` on the strings that reach it in this program.
Its argument is `match[1]` of `/(\d+(?:\.\d+)?)\s*([KkMm]?)/` in
`scrapeUserTweets`, and in `scrapeUserProfile` a string made of digits, dots
and the letters k and m; so no sign, exponent, white space or `Infinity` can
occur, and the function reads the longest prefix `digits`, `digits.digits*` or
`.digits`, giving `NaN` when there is none. -/
def parseFloat (s : Str) : JSNumber :=
  let ip := s.takeWhile isDigit
  match s.dropWhile isDigit with
  | '.' :: r =>
    let fd := r.takeWhile isDigit
    if ip.isEmpty && fd.isEmpty then .nan
    else roundToDouble (digitsToNat (ip ++ fd)) (10 ^ fd.length)
  | _ => if ip.isEmpty then .nan else roundToDouble (digitsToNat ip) 1

/-! ## The engagement number parser (`src/server.js`, lines 162-175) -/

/-- A match of `/(\d+(?:\.\d+)?)\s*([KkMm]?)/` : group 1 and group 2. -/
structure StatMatch where
  number : Str
  suffix : Str
  deriving DecidableEq, Repr

/-- Group 1 and what follows it, for a text that starts with a digit: the
longest run of digits, then a dot and the longest run of digits when the dot
is followed by a digit. -/
def matchNumber (s : Str) : Str × Str :=
  let ip := s.takeWhile isDigit
  match s.dropWhile isDigit with
  | '.' :: r =>
    if (r.takeWhile isDigit).isEmpty then (ip, '.' :: r)
    else (ip ++ '.' :: r.takeWhile isDigit, r.dropWhile isDigit)
  | rest => (ip, rest)

/-- Group 2: after any white space, one of the letters K, k, M, m when
present, the empty string otherwise. -/
def matchSuffix (rest : Str) : Str :=
  match rest.dropWhile isJsSpace with
  | c :: _ => if c = 'K' || c = 'k' || c = 'M' || c = 'm' then [c] else []
  | [] => []

/-- The call `textContent.match(/(\d+(?:\.\d+)?)\s*([KkMm]?)/)` : the
leftmost match, which starts at the first digit of the text; `none` when the
text has no digit. -/
def statMatch (textContent : Str) : Option StatMatch :=
  match textContent.dropWhile (fun c => !isDigit c) with
  | [] => none
  | s => some { number := (matchNumber s).1, suffix := matchSuffix (matchNumber s).2 }

/-- The value computed from the text of one statistics element (lines
163-175): `value` after the `if (match)` block. -/
def parseStatValue (textContent : Option Str) : JSNumber :=
  let text : Str :=
    match textContent.map removeCommas with
    | some (c :: cs) => c :: cs
    | _ => ['0']
  match statMatch text with
  | none => JSNumber.ofNat 0
  | some m =>
    let value := parseFloat m.number
    let suffix := toLowerCase m.suffix
    let value :=
      if suffix = ['k'] then value.mul (JSNumber.ofNat 1000)
      else if suffix = ['m'] then value.mul (JSNumber.ofNat 1000000)
      else value
    value.floor

/-! ## The rendered post element and the record built from it -/

/-- An element of `statGroup.querySelectorAll('[aria-label]')` : its
`aria-label` attribute and its `textContent`. -/
structure StatElement where
  ariaLabel : Option Str
  textContent : Option Str
  deriving DecidableEq, Repr

/-- An element of `article.querySelectorAll('img[src*="pbs.twimg.com"], video')`
: an `IMG` with its `src`, or a `VIDEO` with its `src` and the `src` of its
first `source` child when it has one. -/
inductive MediaElement where
  | img (src : Str)
  | video (src : Str) (source : Option Str)
  deriving DecidableEq, Repr

/-- What the extraction callback reads of one `article` element.  A query that
finds no element is `none`; `innerText` of an element that has none is the
inner `none`. -/
structure Article where
  /-- The property `innerText` of `querySelector('div[data-testid="tweetText"]')`. -/
  tweetText : Option (Option Str)
  /-- The property `innerText` of `querySelector('[lang]')`. -/
  langText : Option (Option Str)
  /-- The property `innerText` of `querySelector('div[dir="ltr"] > span')`. -/
  ltrSpan : Option (Option Str)
  /-- The property `innerText` of `querySelector('[data-testid="User-Name"] span')`. -/
  userNameSpan : Option (Option Str)
  /-- The property `innerText` of `querySelector('span[data-testid="socialContext"]')`. -/
  socialContext : Option (Option Str)
  /-- The attribute `datetime` of `querySelector('time')`. -/
  time : Option (Option Str)
  /-- The attribute `href` of `querySelector('a[href*="/status/"]')`. -/
  statusHref : Option (Option Str)
  /-- The elements with an `aria-label` inside `querySelector('div[role="group"]')`. -/
  statGroup : Option (List StatElement)
  /-- The images of the media host and the videos, in document order. -/
  media : List MediaElement
  /-- The value of `new Date().toISOString()` when the element is read. -/
  now : Str
  deriving DecidableEq, Repr

/-- The four counters of a record. -/
structure Engagement where
  replies : JSNumber
  reposts : JSNumber
  likes : JSNumber
  views : JSNumber
  deriving DecidableEq, Repr

/-- An entry of the `media` array of a record. -/
structure MediaItem where
  type : Str
  url : Option Str
  deriving DecidableEq, Repr

/-- The record pushed to `results` (lines 206-221). -/
structure Tweet where
  id : Str
  username : Str
  text : Str
  timestamp : Option Str
  url : Str
  isRetweet : Bool
  engagement : Engagement
  media : List MediaItem
  scrapedAt : Str
  deriving DecidableEq, Repr

/-- The element `textEl` (lines 129-132): the primary selector, else the
fallback. -/
def textEl (a : Article) : Option (Option Str) :=
  match a.tweetText with
  | some el => some el
  | none => a.langText

/-- The element `userEl` (lines 136-139). -/
def userEl (a : Article) : Option (Option Str) :=
  match a.ltrSpan with
  | some el => some el
  | none => a.userNameSpan

/-- The constant `isRetweet` (line 143). -/
def isRetweet (a : Article) : Bool :=
  match a.socialContext with
  | some (some t) => includes t "Retweeted".toList
  | _ => false

/-- The constant `tweetUrl` (lines 151-152). -/
def tweetUrl (a : Article) : Option Str :=
  match a.statusHref with
  | some href => href
  | none => none

/-- The constant `tweetId` (line 153). -/
def tweetId (a : Article) : Option Str :=
  if truthy (tweetUrl a) then
    match tweetUrl a with
    | some url => (splitSecond "/status/".toList url).map (splitHead "?".toList)
    | none => none
  else none

/-- One step of the `statElements.forEach` loop (lines 161-186). -/
def statStep (e : Engagement) (el : StatElement) : Engagement :=
  let label : Str :=
    match el.ariaLabel with
    | some l => toLowerCase l
    | none => []
  let value := parseStatValue el.textContent
  if includes label "reply".toList || includes label "replies".toList then
    { e with replies := value }
  else if includes label "repost".toList || includes label "reposts".toList then
    { e with reposts := value }
  else if includes label "like".toList || includes label "likes".toList then
    { e with likes := value }
  else if includes label "view".toList || includes label "views".toList then
    { e with views := value }
  else e

/-- The engagement counters of an article (lines 156-187). -/
def engagementOf (a : Article) : Engagement :=
  let zero : Engagement :=
    { replies := JSNumber.ofNat 0, reposts := JSNumber.ofNat 0,
      likes := JSNumber.ofNat 0, views := JSNumber.ofNat 0 }
  match a.statGroup with
  | some els => els.foldl statStep zero
  | none => zero

/-- The array `media` (lines 190-197). -/
def mediaOf (a : Article) : List MediaItem :=
  a.media.map fun el =>
    match el with
    | .img src => { type := "image".toList, url := some src }
    | .video src source =>
      { type := "video".toList, url := if src.isEmpty then source else some src }

/-- The constant `text` (line 199). -/
def textOf (el : Option Str) : Option Str := el.map trim

/-- The constant `username` (line 200). -/
def usernameOf (el : Option Str) : Option Str :=
  el.map fun t => removeFirst '@' (trim t)

/-- The identity key of lines 203 and 234. -/
def uniqueIdOf (username id : Str) : Str := username ++ "::".toList ++ id

/-- The body of the `articles.forEach` callback (lines 127-226) for one
article: the record it pushes, `none` when it pushes nothing.  No statement of
the body can throw on an `Article`, so the `catch` branch is never taken. -/
def extractArticle (includeRetweets : Bool) (scrapedArray : List Str) (a : Article) :
    Option Tweet :=
  match textEl a with
  | none => none
  | some textInner =>
    match userEl a with
    | none => none
    | some userInner =>
      if !includeRetweets && isRetweet a then none
      else
        match textOf textInner, usernameOf userInner, tweetId a with
        | some (t :: ts), some (u :: us), some (i :: is) =>
          if scrapedArray.contains (uniqueIdOf (u :: us) (i :: is)) then none
          else some
            { id := i :: is
              username := u :: us
              text := t :: ts
              timestamp := a.time.join
              url := "https://x.com".toList ++ (tweetUrl a).getD []
              isRetweet := isRetweet a
              engagement := engagementOf a
              media := mediaOf a
              scrapedAt := a.now }
        | _, _, _ => none

/-- The function passed to `page.evaluate` (lines 122-230): the records of the
rendered articles, in document order. -/
def extractTweets (includeRetweets : Bool) (scrapedArray : List Str)
    (articles : List Article) : List Tweet :=
  articles.foldl
    (fun results a =>
      match extractArticle includeRetweets scrapedArray a with
      | some t => results ++ [t]
      | none => results)
    []

/-! ## The page, the options and the trace of `scrapeUserTweets` -/

/-- The two selectors `scrapeUserTweets` waits for (lines 97 and 101). -/
inductive Selector where
  | article
  | tweetTestId
  deriving DecidableEq, Repr

/-- An effect of `scrapeUserTweets` on the page or on the clock. -/
inductive Event where
  /-- A call `page.goto(profileUrl, ...)` (line 82). -/
  | goto
  /-- A wait `setTimeout(resolve, ms)` (lines 91 and 256). -/
  | sleep (ms : Nat)
  /-- A call `page.waitForSelector` (lines 97 and 101). -/
  | waitForSelector (sel : Selector)
  /-- The call `page.content()` (line 104). -/
  | content
  /-- An extraction pass `page.evaluate(...)` (line 122). -/
  | extract
  /-- A scroll `window.scrollBy(0, window.innerHeight * 2)` (line 252). -/
  | scroll
  deriving DecidableEq, Repr

/-- The behaviour of the page during one call.  `gotoError k` is the message of
the error thrown by the attempt number `k` (from 0) of `page.goto`, `none` when
that attempt succeeds; `articles k` are the `article` elements rendered when the
extraction pass number `k` (from 0) runs. -/
structure Page where
  gotoError : Nat → Option String
  articleAppears : Bool
  tweetAppears : Bool
  content : Str
  articles : Nat → List Article

/-- The options of `scrapeUserTweets` (lines 58-64) that act on the control
flow; `includeReplies` only selects the URL. -/
structure Options where
  maxTweets : Nat := 100
  includeReplies : Bool := false
  includeRetweets : Bool := true
  scrollDelay : Nat := 1000
  maxScrolls : Nat := 100
  deriving DecidableEq, Repr

/-- The number of passes, scrolls, or other events of one kind in a trace. -/
def countEvent (e : Event) (trace : List Event) : Nat := trace.count e

/-! ## Navigation with retries (lines 76-93) -/

/-- The loop `while (!navigationSuccess && retries > 0)` entered with
`retries` retries left, before the attempt number `attempt`.  The result is
the thrown error message, if any, and the trace extended by the events of the
loop. -/
def navigate (gotoError : Nat → Option String) :
    (retries : Nat) → (attempt : Nat) → List Event → Except String Unit × List Event
  | 0, _, trace => (.ok (), trace)
  | r + 1, attempt, trace =>
    match gotoError attempt with
    | none => (.ok (), trace ++ [.goto])
    | some navError =>
      if r = 0 then (.error navError, trace ++ [.goto])
      else navigate gotoError r (attempt + 1) (trace ++ [.goto, .sleep 3000])

/-! ## The content gate (lines 95-111) -/

/-- The message of the error of line 107. -/
def userNotFoundMessage : String := "User account not found or suspended"

/-- The message of the error of line 109. -/
def structureChangedMessage : String :=
  "Unable to load tweets - page may have changed structure"

/-- The two nested `try` blocks of lines 96-111. -/
def awaitContent (page : Page) (trace : List Event) : Except String Unit × List Event :=
  if page.articleAppears then (.ok (), trace ++ [.waitForSelector .article])
  else if page.tweetAppears then
    (.ok (), trace ++ [.waitForSelector .article, .waitForSelector .tweetTestId])
  else
    let trace := trace ++ [.waitForSelector .article, .waitForSelector .tweetTestId, .content]
    if includes page.content "This account doesn't exist".toList
        || includes page.content "Account suspended".toList then
      (.error userNotFoundMessage, trace)
    else (.error structureChangedMessage, trace)

/-! ## The deduplicating accumulator (lines 113-114 and 232-239) -/

/-- The sets `scraped` and `tweets`, in insertion order.  The records come
from `page.evaluate`, so each is a fresh object and `tweets.add` always
appends. -/
structure Accumulator where
  scraped : List Str
  tweets : List Tweet
  deriving DecidableEq, Repr

/-- The identity key `uniqueId` of a record (line 234). -/
def uniqueId (tweet : Tweet) : Str := uniqueIdOf tweet.username tweet.id

/-- The body of `newTweets.forEach` (lines 233-239). -/
def addTweet (acc : Accumulator) (tweet : Tweet) : Accumulator :=
  if acc.scraped.contains (uniqueId tweet) then acc
  else { scraped := acc.scraped ++ [uniqueId tweet], tweets := acc.tweets ++ [tweet] }

/-- The loop `newTweets.forEach` (lines 233-239). -/
def mergeTweets (acc : Accumulator) (newTweets : List Tweet) : Accumulator :=
  newTweets.foldl addTweet acc

/-! ## The pagination loop (lines 113-259) -/

/-- The variables of the pagination loop, and the trace so far. -/
structure LoopState where
  acc : Accumulator
  scrollCount : Nat
  noNewTweetsCount : Nat
  trace : List Event
  deriving DecidableEq, Repr

/-- The state at line 117, before the loop. -/
def initialState (trace : List Event) : LoopState :=
  { acc := { scraped := [], tweets := [] }, scrollCount := 0, noNewTweetsCount := 0,
    trace := trace }

/-- The condition of the `while` of line 118. -/
def loopCond (o : Options) (s : LoopState) : Bool :=
  s.acc.tweets.length < o.maxTweets && s.scrollCount < o.maxScrolls
    && s.noNewTweetsCount < 3

/-- The first part of the loop body (lines 119-248): extraction pass, merge,
and update of `noNewTweetsCount`. -/
def extractAndMerge (page : Page) (o : Options) (s : LoopState) : LoopState :=
  let previousSize := s.acc.tweets.length
  let newTweets :=
    extractTweets o.includeRetweets s.acc.scraped
      (page.articles (countEvent .extract s.trace))
  let acc := mergeTweets s.acc newTweets
  { s with
    acc := acc
    noNewTweetsCount := if acc.tweets.length = previousSize then s.noNewTweetsCount + 1 else 0
    trace := s.trace ++ [.extract] }

/-- The second part of the loop body (lines 250-258): the guarded scroll. -/
def scrollStep (o : Options) (s : LoopState) : LoopState :=
  if s.acc.tweets.length < o.maxTweets && s.scrollCount < o.maxScrolls then
    { s with
      scrollCount := s.scrollCount + 1
      trace := s.trace ++ [.scroll, .sleep o.scrollDelay] }
  else s

/-- One iteration of the loop body (lines 119-258). -/
def cycle (page : Page) (o : Options) (s : LoopState) : LoopState :=
  scrollStep o (extractAndMerge page o s)

/-- The `while` loop of lines 118-259, run for at most `fuel` iterations:
the state at the exit of the loop, `none` when the fuel runs out first. -/
def paginate (page : Page) (o : Options) : Nat → LoopState → Option LoopState
  | 0, s => if loopCond o s then none else some s
  | fuel + 1, s => if loopCond o s then paginate page o fuel (cycle page o s) else some s

/-- What a call of `scrapeUserTweets` does: the returned array, or the message
of the thrown error, and the trace of its effects. -/
structure Outcome where
  result : Except String (List Tweet)
  trace : List Event

/-- The `catch` of lines 264-267: any error is thrown again, wrapped. -/
def wrapError (message : String) : String := "Failed to scrape tweets: " ++ message

/-- The method `scrapeUserTweets` (lines 57-268), the loop being run with
`fuel`; `none` when the fuel runs out. -/
def scrapeUserTweets (page : Page) (o : Options) (fuel : Nat) : Option Outcome :=
  match navigate page.gotoError 3 0 [] with
  | (.error message, trace) => some { result := .error (wrapError message), trace := trace }
  | (.ok (), trace) =>
    match awaitContent page trace with
    | (.error message, trace) => some { result := .error (wrapError message), trace := trace }
    | (.ok (), trace) =>
      match paginate page o fuel (initialState trace) with
      | none => none
      | some s => some { result := .ok (s.acc.tweets.take o.maxTweets), trace := s.trace }

/-! ## The follower and following counts of `scrapeUserProfile` (lines 300-327) -/

/-- The class `[\d.,KkMm]` of the regular expression of line 306. -/
def isCountChar (c : Char) : Bool :=
  isDigit c || c = '.' || c = ',' || c = 'K' || c = 'k' || c = 'M' || c = 'm'

/-- The call `text.match(/([\d.,KkMm]+)/)` : group 1 of the leftmost match, the
longest run of characters of the class that starts at the first of them. -/
def countMatch (text : Str) : Option Str :=
  match text.dropWhile (fun c => !isCountChar c) with
  | [] => none
  | s => some (s.takeWhile isCountChar)

/-- The constant `finalCount` of line 319 for the text of one anchor, `none`
when `numberMatch` is `null` (nothing is stored then). -/
def parseFollowCount (text : Str) : Option JSNumber :=
  match countMatch text with
  | none => none
  | some m =>
    let count := toLowerCase (removeCommas m)
    let (multiplier, count) :=
      if includes count ['k'] then (JSNumber.ofNat 1000, removeFirst 'k' count)
      else if includes count ['m'] then (JSNumber.ofNat 1000000, removeFirst 'm' count)
      else (JSNumber.ofNat 1, count)
    some ((parseFloat count).mul multiplier).floor

/-- An element of `followStats` : its `innerText` and its resolved `href`. -/
structure Anchor where
  innerText : Option Str
  href : Str
  deriving DecidableEq, Repr

/-- The variables `followers` and `following`. -/
structure FollowCounts where
  followers : JSNumber
  following : JSNumber
  deriving DecidableEq, Repr

/-- The body of `followStats.forEach` (lines 304-327). -/
def followStep (c : FollowCounts) (el : Anchor) : FollowCounts :=
  match parseFollowCount (el.innerText.getD []) with
  | none => c
  | some finalCount =>
    if includes el.href "/followers".toList then { c with followers := finalCount }
    else if includes el.href "/following".toList then { c with following := finalCount }
    else c

/-- The counts that `scrapeUserProfile` returns (lines 301-327). -/
def followCounts (followStats : List Anchor) : FollowCounts :=
  followStats.foldl followStep { followers := JSNumber.ofNat 0, following := JSNumber.ofNat 0 }

/-! ## Definitions for the statements: specification side and concrete inputs -/

/-- The identity key of a record in the words of the specification: the
username, then the two characters `::`, then the post id. -/
def identityKey (t : Tweet) : Str := t.username ++ [':', ':'] ++ t.id

/-- The list of first occurrences by identity key, in the words of the
specification of the accumulator: a record is kept when no earlier record of
the sequence has its key. -/
def firstOccurrences : List Tweet → List Tweet
  | [] => []
  | t :: ts => t :: (firstOccurrences ts).filter (fun u => identityKey u != identityKey t)

/-- A record of the given user and post id with the given text, its other
fields empty. -/
def sampleTweet (username id text : String) : Tweet :=
  { id := id.toList, username := username.toList, text := text.toList, timestamp := none,
    url := "https://x.com/".toList ++ username.toList ++ "/status/".toList ++ id.toList,
    isRetweet := false,
    engagement :=
      { replies := JSNumber.ofNat 0, reposts := JSNumber.ofNat 0, likes := JSNumber.ofNat 0,
        views := JSNumber.ofNat 0 },
    media := [], scrapedAt := "2024-01-01T00:00:00.000Z".toList }

/-- The empty accumulator of lines 113-114. -/
def emptyAccumulator : Accumulator := { scraped := [], tweets := [] }

/-- The constant `text` of an article: `textEl.innerText?.trim()`, `none` when
there is no `textEl`. -/
def articleText (a : Article) : Option Str :=
  match textEl a with
  | some el => textOf el
  | none => none

/-- The constant `username` of an article: `innerText` of `userEl`, trimmed and
with its first `@` removed; `none` when there is no `userEl`. -/
def articleUsername (a : Article) : Option Str :=
  match userEl a with
  | some el => usernameOf el
  | none => none

/-- The trace of a navigation that fails `k` times and then makes one more
attempt: `k` times a goto followed by the fixed wait, then the last goto. -/
def retryTrace (k : Nat) : List Event :=
  (List.replicate k [Event.goto, Event.sleep 3000]).flatten ++ [Event.goto]

/-- An article with every field absent, to build examples from. -/
def blankArticle : Article :=
  { tweetText := none, langText := none, ltrSpan := none, userNameSpan := none,
    socialContext := none, time := none, statusHref := none, statGroup := none,
    media := [], now := "2024-01-01T00:00:00.000Z".toList }

/-- A well-formed article of the user `alice` with the given status id. -/
def sampleArticle (id : String) : Article :=
  { blankArticle with
    tweetText := some (some " hello ".toList)
    ltrSpan := some (some "@alice".toList)
    statusHref := some (some ("/alice/status/".toList ++ id.toList)) }

/-- A malformed article: text and author are there, the status link is not. -/
def malformedArticle : Article :=
  { blankArticle with
    tweetText := some (some "hello".toList)
    ltrSpan := some (some "@alice".toList) }

/-- A well-formed article whose social context reads `Alice Reposted`. -/
def repostedArticle : Article :=
  { sampleArticle "7" with socialContext := some (some "Alice Reposted".toList) }

/-- A well-formed article whose social context reads `Alice Retweeted`. -/
def retweetedArticle : Article :=
  { sampleArticle "8" with socialContext := some (some "Alice Retweeted".toList) }

/-- The states at the head of the `while` loop of line 118 that a call can
reach, `trace0` being the trace at the entry of the loop. -/
inductive Reachable (page : Page) (o : Options) (trace0 : List Event) : LoopState → Prop
  | init : Reachable page o trace0 (initialState trace0)
  | step {s : LoopState} : Reachable page o trace0 s → loopCond o s = true →
      Reachable page o trace0 (cycle page o s)

/-- A page that loads at once and never renders a post element. -/
def stalledPage : Page :=
  { gotoError := fun _ => none, articleAppears := true, tweetAppears := true,
    content := [], articles := fun _ => [] }

/-- A page that loads at once and renders the same five posts at every pass. -/
def fivePostsPage : Page :=
  { gotoError := fun _ => none, articleAppears := true, tweetAppears := true,
    content := [],
    articles := fun _ =>
      [sampleArticle "1", sampleArticle "2", sampleArticle "3", sampleArticle "4",
        sampleArticle "5"] }

/-- A page whose navigation fails twice and then succeeds, and whose content
never shows a post and reads `Account suspended`. -/
def suspendedPage : Page :=
  { gotoError := fun k => if k < 2 then some "Navigation timeout" else none,
    articleAppears := false, tweetAppears := false,
    content := "<div>Account suspended</div>".toList, articles := fun _ => [] }

/-- The options `maxTweets = 10`, the others by default. -/
def tenTweets : Options := { maxTweets := 10 }

/-- The state of the loop on `stalledPage` after `n` iterations of its body. -/
def stalledAfter : Nat → LoopState
  | 0 => initialState []
  | n + 1 => cycle stalledPage tenTweets (stalledAfter n)

/-- A number of units that a binary64 value can have: at most 53 significant bits. -/
def Representable (n : Nat) : Prop := n < 2 ^ 53 ∨ 2 ^ (floorLog2 n - 52) ∣ n


/-- A well-formed count text, in the words of the specification of the
abbreviated numbers: `num` is a decimal number (after removal of its commas, the
digits `ip` and the optional fraction `fp`, a dot and digits), `suffix` is
empty or one of the letters K, k, M, m, and `rest` is empty or a space followed
by a character that is neither white space, nor a comma, nor one of K, k, M,
m (as in `1.2M Followers`). -/
def CountText (num suffix rest ip fp : Str) : Prop :=
  removeCommas num = ip ++ fp ∧ ip ≠ [] ∧ (∀ c ∈ ip, isDigit c = true)
    ∧ (fp = [] ∨ ∃ fd, fp = '.' :: fd ∧ fd ≠ [] ∧ ∀ c ∈ fd, isDigit c = true)
    ∧ (suffix = [] ∨ suffix = ['K'] ∨ suffix = ['k'] ∨ suffix = ['M'] ∨ suffix = ['m'])
    ∧ (rest = [] ∨ ∃ c w, rest = ' ' :: c :: w ∧ isJsSpace c = false ∧ c ≠ ','
      ∧ c ≠ 'K' ∧ c ≠ 'k' ∧ c ≠ 'M' ∧ c ≠ 'm')

/-- A value that counts something: a natural number or `+Infinity`. -/
def IsCount (x : JSNumber) : Prop := x = .infinity ∨ ∃ k, x = JSNumber.ofNat k

/-! ## The accumulator: proofs -/

theorem uniqueId_eq_identityKey : uniqueId = identityKey := by
  funext t
  simp [uniqueId, uniqueIdOf, identityKey]

theorem firstOccurrences_nil : firstOccurrences [] = [] := rfl

theorem firstOccurrences_cons (t : Tweet) (ts : List Tweet) :
    firstOccurrences (t :: ts)
      = t :: (firstOccurrences ts).filter (fun u => uniqueId u != uniqueId t) := by
  rw [uniqueId_eq_identityKey]
  rfl

theorem mergeTweets_nil (acc : Accumulator) : mergeTweets acc [] = acc := rfl

theorem mergeTweets_cons (acc : Accumulator) (t : Tweet) (ts : List Tweet) :
    mergeTweets acc (t :: ts) = mergeTweets (addTweet acc t) ts := rfl

theorem mergeTweets_append (acc : Accumulator) (xs ys : List Tweet) :
    mergeTweets acc (xs ++ ys) = mergeTweets (mergeTweets acc xs) ys := by
  simp [mergeTweets, List.foldl_append]

theorem foldl_mergeTweets_flatten (batches : List (List Tweet)) (acc : Accumulator) :
    batches.foldl mergeTweets acc = mergeTweets acc batches.flatten := by
  induction batches generalizing acc with
  | nil => rfl
  | cons b bs ih => simp [List.flatten, mergeTweets_append, ih]

theorem mergeTweets_spec (l : List Tweet) (acc : Accumulator) :
    (mergeTweets acc l).tweets
        = acc.tweets ++ (firstOccurrences l).filter (fun u => !acc.scraped.contains (uniqueId u))
      ∧ (mergeTweets acc l).scraped
        = acc.scraped
          ++ ((firstOccurrences l).filter (fun u => !acc.scraped.contains (uniqueId u))).map
            uniqueId := by
  induction l generalizing acc with
  | nil => simp [mergeTweets_nil, firstOccurrences_nil]
  | cons t ts ih =>
    rw [mergeTweets_cons]
    by_cases h : acc.scraped.contains (uniqueId t) = true
    · have hin : uniqueId t ∈ acc.scraped := by simpa using h
      have hadd : addTweet acc t = acc := by simp [addTweet, hin]
      have hfil : ((firstOccurrences (t :: ts)).filter
          (fun u => !acc.scraped.contains (uniqueId u)))
          = (firstOccurrences ts).filter (fun u => !acc.scraped.contains (uniqueId u)) := by
        simp only [firstOccurrences_cons, List.filter_cons, h, Bool.not_true, Bool.false_eq_true,
          if_false, List.filter_filter]
        apply List.filter_congr
        intro u _
        by_cases hu : uniqueId u = uniqueId t
        · simp [hu, hin]
        · simp [hu]
      rw [hadd, hfil]
      exact ih acc
    · have hmem : uniqueId t ∉ acc.scraped := by simpa using h
      have hadd : addTweet acc t
          = { scraped := acc.scraped ++ [uniqueId t], tweets := acc.tweets ++ [t] } := by
        simp [addTweet, hmem]
      have hfil : ((firstOccurrences (t :: ts)).filter
          (fun u => !acc.scraped.contains (uniqueId u)))
          = t :: (firstOccurrences ts).filter
              (fun u => !(acc.scraped ++ [uniqueId t]).contains (uniqueId u)) := by
        simp only [firstOccurrences_cons, List.filter_cons, List.filter_filter]
        have hc : (!acc.scraped.contains (uniqueId t)) = true := by simpa using hmem
        simp only [hc, if_true]
        congr 1
        apply List.filter_congr
        intro u _
        by_cases hu : uniqueId u = uniqueId t
        · simp [hu]
        · simp [hu]
      rw [hadd, hfil]
      obtain ⟨h1, h2⟩ := ih { scraped := acc.scraped ++ [uniqueId t], tweets := acc.tweets ++ [t] }
      constructor
      · rw [h1]; simp
      · rw [h2]; simp

theorem mem_firstOccurrences_keys (l : List Tweet) (k : Str) :
    k ∈ (firstOccurrences l).map uniqueId ↔ k ∈ l.map uniqueId := by
  induction l with
  | nil => simp [firstOccurrences_nil]
  | cons t ts ih =>
    simp only [firstOccurrences_cons, List.map_cons, List.mem_cons]
    constructor
    · rintro (h | h)
      · exact Or.inl h
      · right
        rw [← ih]
        simp only [List.mem_map, List.mem_filter] at h ⊢
        obtain ⟨u, ⟨hu, _⟩, rfl⟩ := h
        exact ⟨u, hu, rfl⟩
    · rintro (h | h)
      · exact Or.inl h
      · by_cases hk : k = uniqueId t
        · exact Or.inl hk
        · right
          rw [← ih] at h
          simp only [List.mem_map, List.mem_filter] at h ⊢
          obtain ⟨u, hu, rfl⟩ := h
          exact ⟨u, ⟨hu, by simpa using hk⟩, rfl⟩

theorem firstOccurrences_keys_nodup (l : List Tweet) :
    ((firstOccurrences l).map uniqueId).Nodup := by
  induction l with
  | nil => simp [firstOccurrences_nil]
  | cons t ts ih =>
    simp only [firstOccurrences_cons, List.map_cons, List.nodup_cons]
    constructor
    · simp only [List.mem_map, List.mem_filter, not_exists, not_and]
      rintro u ⟨_, hu⟩ h
      simp [h] at hu
    · exact (ih.sublist ((List.filter_sublist _).map uniqueId))

theorem firstOccurrences_length (l : List Tweet) :
    (firstOccurrences l).length = (l.map uniqueId).toFinset.card := by
  have h : ((firstOccurrences l).map uniqueId).toFinset = (l.map uniqueId).toFinset := by
    ext k
    simp only [List.mem_toFinset]
    exact mem_firstOccurrences_keys l k
  rw [← h, List.toFinset_card_of_nodup (firstOccurrences_keys_nodup l), List.length_map]

theorem mergeTweets_absorb (l : List Tweet) (acc : Accumulator)
    (h : ∀ t ∈ l, uniqueId t ∈ acc.scraped) : mergeTweets acc l = acc := by
  induction l with
  | nil => rfl
  | cons t ts ih =>
    have ht : uniqueId t ∈ acc.scraped := h t (List.mem_cons_self _ _)
    have hadd : addTweet acc t = acc := by simp [addTweet, ht]
    rw [mergeTweets_cons, hadd]
    exact ih (fun u hu => h u (List.mem_cons_of_mem _ hu))

theorem merged_from_empty (batches : List (List Tweet)) :
    (batches.foldl mergeTweets emptyAccumulator).tweets = firstOccurrences batches.flatten
      ∧ (batches.foldl mergeTweets emptyAccumulator).scraped
        = (firstOccurrences batches.flatten).map uniqueId := by
  rw [foldl_mergeTweets_flatten]
  obtain ⟨h1, h2⟩ := mergeTweets_spec batches.flatten emptyAccumulator
  simp only [emptyAccumulator] at h1 h2 ⊢
  constructor
  · rw [h1]; simp
  · rw [h2]; simp

/-- C2. Whatever batches of candidate records are merged into the empty
accumulator, the accumulated sequence is the list of first occurrences by the
identity key `username ++ "::" ++ id` (which is the key `uniqueId` that the
code computes), in order of first occurrence; the set `scraped` holds exactly
their keys; the size is the number of distinct keys; a record whose key was
already seen leaves the accumulator unchanged; feeding the same batches a
second time changes nothing; and any other way of feeding records with the
same keys (such as an interleaving of the sequence with itself) gives the same
size. -/
theorem accumulator_first_occurrences (batches : List (List Tweet)) :
    (∀ t : Tweet, uniqueId t = t.username ++ "::".toList ++ t.id)
      ∧ (batches.foldl mergeTweets emptyAccumulator).tweets
        = firstOccurrences batches.flatten
      ∧ (batches.foldl mergeTweets emptyAccumulator).scraped
        = (batches.foldl mergeTweets emptyAccumulator).tweets.map
          (fun t => t.username ++ "::".toList ++ t.id)
      ∧ (batches.foldl mergeTweets emptyAccumulator).tweets.length
        = (batches.flatten.map (fun t => t.username ++ "::".toList ++ t.id)).toFinset.card
      ∧ (∀ (acc : Accumulator) (t : Tweet),
          t.username ++ "::".toList ++ t.id ∈ acc.scraped → addTweet acc t = acc)
      ∧ (batches ++ batches).foldl mergeTweets emptyAccumulator
        = batches.foldl mergeTweets emptyAccumulator
      ∧ (∀ other : List (List Tweet),
          (∀ k, k ∈ other.flatten.map (fun t => t.username ++ "::".toList ++ t.id)
            ↔ k ∈ batches.flatten.map (fun t => t.username ++ "::".toList ++ t.id)) →
          (other.foldl mergeTweets emptyAccumulator).tweets.length
            = (batches.foldl mergeTweets emptyAccumulator).tweets.length) := by
  have hkey : (fun t : Tweet => t.username ++ "::".toList ++ t.id) = uniqueId := by
    funext t
    simp [uniqueId, uniqueIdOf]
  have hkeyt : ∀ t : Tweet, uniqueId t = t.username ++ "::".toList ++ t.id := by
    intro t
    rw [← hkey]
  obtain ⟨h1, h2⟩ := merged_from_empty batches
  rw [hkey]
  refine ⟨hkeyt, h1, ?_, ?_, ?_, ?_, ?_⟩
  rotate_right
  · intro other hkeys
    rw [(merged_from_empty other).1, h1, firstOccurrences_length, firstOccurrences_length]
    congr 1
    ext k
    simp only [List.mem_toFinset]
    exact hkeys k
  · rw [h2, h1]
  · rw [h1, firstOccurrences_length]
  · intro acc t ht
    rw [← hkeyt t] at ht
    simp [addTweet, ht]
  · rw [List.foldl_append, foldl_mergeTweets_flatten batches
      (batches.foldl mergeTweets emptyAccumulator)]
    apply mergeTweets_absorb
    intro t ht
    rw [h2, mem_firstOccurrences_keys]
    exact List.mem_map_of_mem _ ht

/-- C2, at concrete batches: `alice::1` and `bob::1` share the post id and not
the key, so both are kept; the second record of key `alice::1`, which has
another text, is dropped; the keys stored are the usernames and ids joined by
`::`, and the first occurrences computed from the specification key are the
same three records. -/
theorem accumulator_first_occurrences_witness :
    ([[sampleTweet "alice" "1" "first", sampleTweet "bob" "1" "second"],
        [sampleTweet "alice" "1" "again", sampleTweet "bob" "2" "third"]].foldl
        mergeTweets emptyAccumulator)
      = { scraped := ["alice::1".toList, "bob::1".toList, "bob::2".toList],
          tweets := [sampleTweet "alice" "1" "first", sampleTweet "bob" "1" "second",
            sampleTweet "bob" "2" "third"] }
      ∧ firstOccurrences
          [sampleTweet "alice" "1" "first", sampleTweet "bob" "1" "second",
            sampleTweet "alice" "1" "again", sampleTweet "bob" "2" "third"]
        = [sampleTweet "alice" "1" "first", sampleTweet "bob" "1" "second",
            sampleTweet "bob" "2" "third"]
      ∧ ([[sampleTweet "alice" "1" "first", sampleTweet "bob" "1" "second"],
          [sampleTweet "alice" "1" "again", sampleTweet "bob" "2" "third"]].foldl
          mergeTweets emptyAccumulator).tweets
        = firstOccurrences
          [[sampleTweet "alice" "1" "first", sampleTweet "bob" "1" "second"],
            [sampleTweet "alice" "1" "again", sampleTweet "bob" "2" "third"]].flatten :=
  ⟨by decide, by decide,
   (accumulator_first_occurrences
      [[sampleTweet "alice" "1" "first", sampleTweet "bob" "1" "second"],
        [sampleTweet "alice" "1" "again", sampleTweet "bob" "2" "third"]]).2.1⟩

/-! ## The field extractor: proofs -/

theorem extractTweets_eq_filterMap (includeRetweets : Bool) (scrapedArray : List Str)
    (articles : List Article) :
    extractTweets includeRetweets scrapedArray articles
      = articles.filterMap (extractArticle includeRetweets scrapedArray) := by
  have key : ∀ (l : List Article) (init : List Tweet),
      l.foldl
        (fun results a =>
          match extractArticle includeRetweets scrapedArray a with
          | some t => results ++ [t]
          | none => results)
        init
        = init ++ l.filterMap (extractArticle includeRetweets scrapedArray) := by
    intro l
    induction l with
    | nil => intro init; simp
    | cons a as ih =>
      intro init
      rw [List.foldl_cons, ih]
      cases h : extractArticle includeRetweets scrapedArray a with
      | none => simp [List.filterMap_cons, h]
      | some t => simp [List.filterMap_cons, h]
  simpa [extractTweets] using key articles []

theorem extractArticle_some (includeRetweets : Bool) (scrapedArray : List Str) (a : Article)
    (t : Tweet) (h : extractArticle includeRetweets scrapedArray a = some t) :
    articleText a = some t.text ∧ articleUsername a = some t.username
      ∧ tweetId a = some t.id ∧ t.text ≠ [] ∧ t.username ≠ [] ∧ t.id ≠ []
      ∧ t.isRetweet = isRetweet a ∧ (includeRetweets = false → isRetweet a = false)
      ∧ uniqueId t ∉ scrapedArray := by
  unfold extractArticle at h
  cases hte : textEl a with
  | none => simp [hte] at h
  | some textInner =>
    cases hue : userEl a with
    | none => simp [hte, hue] at h
    | some userInner =>
      simp only [hte, hue] at h
      split at h
      · exact absurd h (by simp)
      · rename_i hrt
        split at h
        · rename_i t0 ts u0 us i0 is htx hus hid
          split at h
          · exact absurd h (by simp)
          · rename_i hnot
            simp only [Option.some.injEq] at h
            subst h
            refine ⟨?_, ?_, ?_, by simp, by simp, by simp, rfl, ?_, ?_⟩
            · simp [articleText, hte, htx]
            · simp [articleUsername, hue, hus]
            · simp [hid]
            · intro hinc
              simpa [hinc] using hrt
            · simpa [uniqueId] using hnot
        · exact absurd h (by simp)

theorem extractArticle_none_of_missing (includeRetweets : Bool) (scrapedArray : List Str)
    (a : Article)
    (h : truthy (articleText a) = false ∨ truthy (articleUsername a) = false
      ∨ truthy (tweetId a) = false) :
    extractArticle includeRetweets scrapedArray a = none := by
  cases hx : extractArticle includeRetweets scrapedArray a with
  | none => rfl
  | some t =>
    obtain ⟨h1, h2, h3, h4, h5, h6, _⟩ := extractArticle_some _ _ _ _ hx
    rw [h1, h2, h3] at h
    have e1 : truthy (some t.text) = true := by
      cases hh : t.text with
      | nil => exact absurd hh h4
      | cons c cs => rfl
    have e2 : truthy (some t.username) = true := by
      cases hh : t.username with
      | nil => exact absurd hh h5
      | cons c cs => rfl
    have e3 : truthy (some t.id) = true := by
      cases hh : t.id with
      | nil => exact absurd hh h6
      | cons c cs => rfl
    rw [e1, e2, e3] at h
    simp at h

theorem isRetweet_iff (a : Article) :
    isRetweet a = true
      ↔ ∃ txt, a.socialContext = some (some txt) ∧ includes txt "Retweeted".toList = true := by
  unfold isRetweet
  split
  · rename_i t ht
    constructor
    · intro h
      exact ⟨t, ht, h⟩
    · rintro ⟨txt, h1, h2⟩
      rw [ht] at h1
      simp only [Option.some.injEq] at h1
      subst h1
      exact h2
  · rename_i hne
    constructor
    · intro h
      exact absurd h (by simp)
    · rintro ⟨txt, h1, _⟩
      exact absurd h1 (hne txt)

theorem extractArticle_skips_retweet (scrapedArray : List Str) (a : Article)
    (h : isRetweet a = true) : extractArticle false scrapedArray a = none := by
  unfold extractArticle
  cases textEl a with
  | none => rfl
  | some textInner =>
    cases userEl a with
    | none => rfl
    | some userInner => simp [h]

theorem extractArticle_keeps_other (scrapedArray : List Str) (a : Article)
    (h : isRetweet a = false) :
    extractArticle false scrapedArray a = extractArticle true scrapedArray a := by
  unfold extractArticle
  cases textEl a with
  | none => rfl
  | some textInner =>
    cases userEl a with
    | none => rfl
    | some userInner => simp [h]

/-- C8. For every value of `includeRetweets` (and of the array of known keys),
a record is emitted for an article only when its trimmed text, its username
(trimmed, first `@` removed) and its tweet id are all non-empty, and these are
the fields of the record; an article missing one of the three yields no record;
and the batch is exactly the records of the articles that yield one, in order,
so that an article that yields none does not change the records of the
others. -/
theorem extractor_emits_only_complete_records (includeRetweets : Bool)
    (scrapedArray : List Str) :
    (∀ a t, extractArticle includeRetweets scrapedArray a = some t →
        articleText a = some t.text ∧ articleUsername a = some t.username
          ∧ tweetId a = some t.id ∧ t.text ≠ [] ∧ t.username ≠ [] ∧ t.id ≠ [])
      ∧ (∀ a, (truthy (articleText a) = false ∨ truthy (articleUsername a) = false
            ∨ truthy (tweetId a) = false) →
          extractArticle includeRetweets scrapedArray a = none)
      ∧ (∀ articles, extractTweets includeRetweets scrapedArray articles
          = articles.filterMap (extractArticle includeRetweets scrapedArray))
      ∧ (∀ before after a, extractArticle includeRetweets scrapedArray a = none →
          extractTweets includeRetweets scrapedArray (before ++ a :: after)
            = extractTweets includeRetweets scrapedArray (before ++ after)) := by
  refine ⟨?_, ?_, ?_, ?_⟩
  · intro a t h
    obtain ⟨h1, h2, h3, h4, h5, h6, _⟩ := extractArticle_some _ _ _ _ h
    exact ⟨h1, h2, h3, h4, h5, h6⟩
  · intro a h
    exact extractArticle_none_of_missing _ _ _ h
  · intro articles
    exact extractTweets_eq_filterMap _ _ _
  · intro before after a h
    simp [extractTweets_eq_filterMap, List.filterMap_append, List.filterMap_cons, h]

/-- C8, at a concrete batch: a malformed article between two well-formed ones
yields no record and the two others are emitted, complete. -/
theorem extractor_emits_only_complete_records_witness :
    extractArticle true [] malformedArticle = none
      ∧ extractTweets true [] [sampleArticle "1", malformedArticle, sampleArticle "2"]
        = extractTweets true [] [sampleArticle "1", sampleArticle "2"]
      ∧ (extractTweets true [] [sampleArticle "1", malformedArticle, sampleArticle "2"]).map
          (fun t => (t.username, t.id, t.text))
        = [("alice".toList, "1".toList, "hello".toList),
           ("alice".toList, "2".toList, "hello".toList)] :=
  ⟨by decide,
   (extractor_emits_only_complete_records true []).2.2.2 [sampleArticle "1"]
     [sampleArticle "2"] malformedArticle (by decide),
   by decide⟩

/-- C10, as stated, fails: an article whose social context contains the word
`Reposted` (and not `Retweeted`) is emitted with `isRetweet = false` even when
`includeRetweets` is false. -/
theorem reposted_annotation_not_detected :
    repostedArticle.socialContext = some (some "Alice Reposted".toList)
      ∧ includes "Alice Reposted".toList "Reposted".toList = true
      ∧ (extractArticle false [] repostedArticle).map (fun t => (t.id, t.isRetweet))
        = some ("7".toList, false) :=
  ⟨by decide, by decide, by decide⟩

/-- C10, amended. An article whose social-context annotation contains
`Retweeted` is marked `isRetweet = true` in the record it yields and yields no
record when `includeRetweets` is false; an article with no annotation
containing `Retweeted` is marked `isRetweet = false` and yields the same record
whether `includeRetweets` is false or true. -/
theorem retweeted_annotation_marked_and_skipped (includeRetweets : Bool)
    (scrapedArray : List Str) (a : Article) :
    ((∃ txt, a.socialContext = some (some txt) ∧ includes txt "Retweeted".toList = true) →
        extractArticle false scrapedArray a = none
          ∧ ∀ t, extractArticle includeRetweets scrapedArray a = some t → t.isRetweet = true)
      ∧ ((¬ ∃ txt, a.socialContext = some (some txt)
            ∧ includes txt "Retweeted".toList = true) →
        extractArticle false scrapedArray a = extractArticle true scrapedArray a
          ∧ ∀ t, extractArticle includeRetweets scrapedArray a = some t →
            t.isRetweet = false) := by
  constructor
  · intro h
    have hrt : isRetweet a = true := (isRetweet_iff a).2 h
    refine ⟨extractArticle_skips_retweet _ _ hrt, ?_⟩
    intro t ht
    have := (extractArticle_some _ _ _ _ ht).2.2.2.2.2.2.1
    rw [this, hrt]
  · intro h
    have hrt : isRetweet a = false := by
      cases hh : isRetweet a with
      | false => rfl
      | true => exact absurd ((isRetweet_iff a).1 hh) h
    refine ⟨extractArticle_keeps_other _ _ hrt, ?_⟩
    intro t ht
    have := (extractArticle_some _ _ _ _ ht).2.2.2.2.2.2.1
    rw [this, hrt]

/-- C10 amended, at concrete articles: the article annotated `Alice Retweeted`
is skipped when `includeRetweets` is false and marked when it is true. -/
theorem retweeted_annotation_marked_and_skipped_witness :
    extractArticle false [] retweetedArticle = none
      ∧ (extractArticle true [] retweetedArticle).map (fun t => (t.id, t.isRetweet))
        = some ("8".toList, true) :=
  ⟨((retweeted_annotation_marked_and_skipped true [] retweetedArticle).1
      ⟨"Alice Retweeted".toList, by decide, by decide⟩).1,
   by decide⟩

/-! ## Navigation and content gate: proofs -/

theorem navigate_count_scroll (gotoError : Nat → Option String) (retries attempt : Nat)
    (trace : List Event) :
    countEvent .scroll (navigate gotoError retries attempt trace).2 = countEvent .scroll trace := by
  induction retries generalizing attempt trace with
  | zero => rfl
  | succ r ih =>
    unfold navigate
    cases gotoError attempt with
    | none => simp [countEvent]
    | some e =>
      by_cases hr : r = 0
      · simp [hr, countEvent]
      · simp only [hr, if_false]
        rw [ih]
        simp [countEvent]

theorem awaitContent_count_scroll (page : Page) (trace : List Event) :
    countEvent .scroll (awaitContent page trace).2 = countEvent .scroll trace := by
  unfold awaitContent
  split
  · simp [countEvent]
  · split
    · simp [countEvent]
    · dsimp only
      split <;> simp [countEvent]

theorem awaitContent_ok_iff (page : Page) (trace : List Event) :
    (awaitContent page trace).1 = .ok ()
      ↔ (page.articleAppears = true ∨ page.tweetAppears = true) := by
  unfold awaitContent
  cases page.articleAppears <;> cases page.tweetAppears <;> simp; split <;> simp

/-! ## The pagination loop: proofs -/

theorem scrollStep_acc (o : Options) (s : LoopState) : (scrollStep o s).acc = s.acc := by
  unfold scrollStep; split <;> rfl

theorem scrollStep_noNew (o : Options) (s : LoopState) :
    (scrollStep o s).noNewTweetsCount = s.noNewTweetsCount := by
  unfold scrollStep; split <;> rfl

theorem scrollStep_cases (o : Options) (s : LoopState) :
    (s.acc.tweets.length < o.maxTweets ∧ s.scrollCount < o.maxScrolls
        ∧ (scrollStep o s).scrollCount = s.scrollCount + 1
        ∧ (scrollStep o s).trace = s.trace ++ [.scroll, .sleep o.scrollDelay])
      ∨ (¬ (s.acc.tweets.length < o.maxTweets ∧ s.scrollCount < o.maxScrolls)
        ∧ scrollStep o s = s) := by
  by_cases h : s.acc.tweets.length < o.maxTweets ∧ s.scrollCount < o.maxScrolls
  · left
    refine ⟨h.1, h.2, ?_, ?_⟩ <;> simp [scrollStep, h.1, h.2]
  · right
    refine ⟨h, ?_⟩
    unfold scrollStep
    rw [if_neg]
    simpa using h

theorem extractAndMerge_scrollCount (page : Page) (o : Options) (s : LoopState) :
    (extractAndMerge page o s).scrollCount = s.scrollCount := rfl

theorem extractAndMerge_trace (page : Page) (o : Options) (s : LoopState) :
    (extractAndMerge page o s).trace = s.trace ++ [.extract] := rfl

theorem extractAndMerge_noNew (page : Page) (o : Options) (s : LoopState) :
    (extractAndMerge page o s).noNewTweetsCount
      = if (extractAndMerge page o s).acc.tweets.length = s.acc.tweets.length
        then s.noNewTweetsCount + 1 else 0 := rfl

theorem loopCond_iff (o : Options) (s : LoopState) :
    loopCond o s = true
      ↔ s.acc.tweets.length < o.maxTweets ∧ s.scrollCount < o.maxScrolls
        ∧ s.noNewTweetsCount < 3 := by
  simp [loopCond, and_assoc]

theorem paginate_of_not_cond (page : Page) (o : Options) (fuel : Nat) (s : LoopState)
    (h : loopCond o s = false) : paginate page o fuel s = some s := by
  cases fuel <;> simp [paginate, h]

theorem cycle_scrollCount_of_cond (page : Page) (o : Options) (s : LoopState)
    (h : loopCond o (cycle page o s) = true) :
    (cycle page o s).scrollCount = s.scrollCount + 1 := by
  rcases scrollStep_cases o (extractAndMerge page o s) with ⟨_, _, h3, _⟩ | ⟨hn, he⟩
  · rw [cycle, h3, extractAndMerge_scrollCount]
  · exfalso
    have hc := (loopCond_iff o (cycle page o s)).1 h
    rw [cycle, he] at hc
    exact hn ⟨hc.1, hc.2.1⟩

theorem paginate_total (page : Page) (o : Options) (trace0 : List Event) (fuel : Nat) :
    ∀ s, Reachable page o trace0 s →
      (loopCond o s = true → o.maxScrolls - s.scrollCount ≤ fuel) →
      ∃ s', paginate page o fuel s = some s' ∧ Reachable page o trace0 s'
        ∧ loopCond o s' = false := by
  induction fuel with
  | zero =>
    intro s hr h
    cases hc : loopCond o s with
    | false => exact ⟨s, by simp [paginate, hc], hr, hc⟩
    | true =>
      have := h hc
      have := ((loopCond_iff o s).1 hc).2.1
      omega
  | succ fuel ih =>
    intro s hr h
    cases hc : loopCond o s with
    | false => exact ⟨s, by simp [paginate, hc], hr, hc⟩
    | true =>
      have hb := h hc
      have hlt := ((loopCond_iff o s).1 hc).2.1
      obtain ⟨s', h1, h2, h3⟩ := ih (cycle page o s) (Reachable.step hr hc) (by
        intro hc'
        rw [cycle_scrollCount_of_cond page o s hc']
        omega)
      exact ⟨s', by simp [paginate, hc, h1], h2, h3⟩

theorem paginate_reachable (page : Page) (o : Options) (trace0 : List Event) (fuel : Nat) :
    ∀ s s', Reachable page o trace0 s → paginate page o fuel s = some s' →
      Reachable page o trace0 s' ∧ loopCond o s' = false := by
  induction fuel with
  | zero =>
    intro s s' hr h
    cases hc : loopCond o s with
    | false =>
      simp [paginate, hc] at h
      subst h
      exact ⟨hr, hc⟩
    | true => simp [paginate, hc] at h
  | succ fuel ih =>
    intro s s' hr h
    cases hc : loopCond o s with
    | false =>
      simp [paginate, hc] at h
      subst h
      exact ⟨hr, hc⟩
    | true =>
      simp only [paginate, hc, if_true] at h
      exact ih _ _ (Reachable.step hr hc) h

theorem reachable_invariant (page : Page) (o : Options) (trace0 : List Event) (s : LoopState)
    (h : Reachable page o trace0 s) :
    s.scrollCount ≤ o.maxScrolls ∧ s.noNewTweetsCount ≤ 3
      ∧ countEvent .scroll s.trace = countEvent .scroll trace0 + s.scrollCount := by
  induction h with
  | init => simp [initialState]
  | step hr hc ih =>
    rename_i s
    obtain ⟨i1, i2, i3⟩ := ih
    obtain ⟨c1, c2, c3⟩ := (loopCond_iff o s).1 hc
    have hnn : (cycle page o s).noNewTweetsCount ≤ 3 := by
      rw [cycle, scrollStep_noNew, extractAndMerge_noNew]
      split <;> omega
    rcases scrollStep_cases o (extractAndMerge page o s) with ⟨_, _, h3, h4⟩ | ⟨_, he⟩
    · refine ⟨?_, hnn, ?_⟩
      · rw [cycle, h3, extractAndMerge_scrollCount]; omega
      · rw [cycle, h4, h3, extractAndMerge_trace, extractAndMerge_scrollCount]
        simp only [countEvent] at i3 ⊢
        simp [List.count_append, i3]
        omega
    · refine ⟨?_, hnn, ?_⟩
      · rw [cycle, he, extractAndMerge_scrollCount]; exact i1
      · rw [cycle, he, extractAndMerge_trace, extractAndMerge_scrollCount]
        simp only [countEvent] at i3 ⊢
        simp [List.count_append, i3]

theorem extractAndMerge_length_le (page : Page) (o : Options) (s : LoopState) :
    s.acc.tweets.length ≤ (extractAndMerge page o s).acc.tweets.length := by
  have h := (mergeTweets_spec
    (extractTweets o.includeRetweets s.acc.scraped
      (page.articles (countEvent .extract s.trace))) s.acc).1
  show s.acc.tweets.length ≤ (mergeTweets s.acc _).tweets.length
  rw [h, List.length_append]
  omega

theorem cycle_noNew (page : Page) (o : Options) (s : LoopState) :
    (cycle page o s).noNewTweetsCount
      = if (extractAndMerge page o s).acc.tweets.length = s.acc.tweets.length
        then s.noNewTweetsCount + 1 else 0 := by
  rw [cycle, scrollStep_noNew, extractAndMerge_noNew]

theorem cycle_trace (page : Page) (o : Options) (s : LoopState) :
    (cycle page o s).trace = s.trace ++ [.extract]
      ∨ (cycle page o s).trace = s.trace ++ [.extract, .scroll, .sleep o.scrollDelay] := by
  rcases scrollStep_cases o (extractAndMerge page o s) with ⟨_, _, _, h4⟩ | ⟨_, he⟩
  · right
    rw [cycle, h4, extractAndMerge_trace]
    simp
  · left
    rw [cycle, he, extractAndMerge_trace]

theorem scrape_cases (page : Page) (o : Options) (fuel : Nat) (out : Outcome)
    (h : scrapeUserTweets page o fuel = some out) :
    (∃ m, navigate page.gotoError 3 0 [] = (.error m, out.trace)
        ∧ out.result = .error (wrapError m))
      ∨ (∃ tr m, navigate page.gotoError 3 0 [] = (.ok (), tr)
        ∧ awaitContent page tr = (.error m, out.trace) ∧ out.result = .error (wrapError m))
      ∨ (∃ tr tr' s, navigate page.gotoError 3 0 [] = (.ok (), tr)
        ∧ awaitContent page tr = (.ok (), tr')
        ∧ paginate page o fuel (initialState tr') = some s
        ∧ out.result = .ok (s.acc.tweets.take o.maxTweets) ∧ out.trace = s.trace) := by
  unfold scrapeUserTweets at h
  rcases hn : navigate page.gotoError 3 0 [] with ⟨r, tr⟩
  rw [hn] at h
  cases r with
  | error m =>
    simp only [Option.some.injEq] at h
    subst h
    exact Or.inl ⟨m, rfl, rfl⟩
  | ok u =>
    cases u
    simp only at h
    rcases ha : awaitContent page tr with ⟨r', tr'⟩
    rw [ha] at h
    cases r' with
    | error m =>
      simp only [Option.some.injEq] at h
      subst h
      exact Or.inr (Or.inl ⟨tr, m, rfl, ha, rfl⟩)
    | ok u' =>
      cases u'
      simp only at h
      cases hp : paginate page o fuel (initialState tr') with
      | none => simp [hp] at h
      | some s =>
        simp only [hp, Option.some.injEq] at h
        subst h
        exact Or.inr (Or.inr ⟨tr, tr', s, rfl, ha, hp, rfl, rfl⟩)

theorem scrape_total (page : Page) (o : Options) (fuel : Nat) (hfuel : o.maxScrolls ≤ fuel) :
    ∃ out, scrapeUserTweets page o fuel = some out := by
  unfold scrapeUserTweets
  rcases hn : navigate page.gotoError 3 0 [] with ⟨r, tr⟩
  cases r with
  | error m => exact ⟨_, rfl⟩
  | ok u =>
    cases u
    simp only
    rcases ha : awaitContent page tr with ⟨r', tr'⟩
    cases r' with
    | error m => exact ⟨_, rfl⟩
    | ok u' =>
      cases u'
      simp only
      obtain ⟨s', h1, _, _⟩ := paginate_total page o tr' fuel (initialState tr') Reachable.init
        (by intro _; simp [initialState]; exact hfuel)
      rw [h1]
      exact ⟨_, rfl⟩

theorem awaitContent_count_goto (page : Page) (trace : List Event) :
    countEvent .goto (awaitContent page trace).2 = countEvent .goto trace := by
  unfold awaitContent
  split
  · simp [countEvent]
  · split
    · simp [countEvent]
    · dsimp only
      split <;> simp [countEvent]

theorem reachable_count_goto (page : Page) (o : Options) (trace0 : List Event) (s : LoopState)
    (h : Reachable page o trace0 s) : countEvent .goto s.trace = countEvent .goto trace0 := by
  induction h with
  | init => rfl
  | step hr hc ih =>
    rename_i s
    rcases cycle_trace page o s with h1 | h1
    · rw [h1]
      simp only [countEvent] at ih ⊢
      simp [List.count_append, ih]
    · rw [h1]
      simp only [countEvent] at ih ⊢
      simp [List.count_append, ih]

/-- C6. Whatever the attempts of `page.goto` do, the retry loop makes at most
3 of them; when the attempt number `k` (counted from 0, `k < 3`) is the first
to succeed, navigation succeeds after exactly `k` waits of 3000 ms, one after
each failed attempt; when the first three attempts fail, the error of the
third is thrown right after it, with two waits in all and no fourth attempt,
and `scrapeUserTweets` throws it wrapped by its `catch`; a call of
`scrapeUserTweets` makes no other goto than those of this loop. -/
theorem navigation_at_most_three_attempts (gotoError : Nat → Option String) :
    countEvent .goto (navigate gotoError 3 0 []).2 ≤ 3
      ∧ (∀ k, k < 3 → (∀ j, j < k → gotoError j ≠ none) → gotoError k = none →
          navigate gotoError 3 0 [] = (.ok (), retryTrace k)
            ∧ countEvent (.sleep 3000) (retryTrace k) = k
            ∧ countEvent .goto (retryTrace k) = k + 1)
      ∧ (∀ e0 e1 e2, gotoError 0 = some e0 → gotoError 1 = some e1 → gotoError 2 = some e2 →
          navigate gotoError 3 0 [] = (.error e2, retryTrace 2)
            ∧ countEvent (.sleep 3000) (retryTrace 2) = 2
            ∧ countEvent .goto (retryTrace 2) = 3
            ∧ ∀ (page : Page) (o : Options) (fuel : Nat), page.gotoError = gotoError →
              scrapeUserTweets page o fuel
                = some { result := .error (wrapError e2), trace := retryTrace 2 })
      ∧ (∀ (page : Page) (o : Options) (fuel : Nat) (out : Outcome),
          page.gotoError = gotoError → scrapeUserTweets page o fuel = some out →
          countEvent .goto out.trace = countEvent .goto (navigate gotoError 3 0 []).2) := by
  refine ⟨?_, ?_, ?_, ?_⟩
  rotate_right
  · intro page o fuel out hp hout
    subst hp
    rcases scrape_cases page o fuel out hout with ⟨m, h1, _⟩ | ⟨tr, m, h1, h2, _⟩
      | ⟨tr, tr', s, h1, h2, h3, _, h5⟩
    · rw [h1]
    · have ha := awaitContent_count_goto page tr
      rw [h2] at ha
      rw [h1]
      exact ha
    · have ha := awaitContent_count_goto page tr
      rw [h2] at ha
      obtain ⟨hr, _⟩ := paginate_reachable page o tr' fuel _ _ Reachable.init h3
      rw [h1, h5, reachable_count_goto page o tr' s hr]
      exact ha
  · cases h0 : gotoError 0 with
    | none => simp [navigate, h0, countEvent]
    | some e0 =>
      cases h1 : gotoError 1 with
      | none => simp [navigate, h0, h1, countEvent]
      | some e1 =>
        cases h2 : gotoError 2 with
        | none => simp [navigate, h0, h1, h2, countEvent]
        | some e2 => simp [navigate, h0, h1, h2, countEvent]
  · intro k hk hfail hok
    have hcases : k = 0 ∨ k = 1 ∨ k = 2 := by omega
    rcases hcases with rfl | rfl | rfl
    · refine ⟨?_, by decide, by decide⟩
      simp [navigate, hok, retryTrace]
    · obtain ⟨e0, h0⟩ := Option.ne_none_iff_exists'.1 (hfail 0 (by omega))
      refine ⟨?_, by decide, by decide⟩
      simp [navigate, hok, h0, retryTrace]
    · obtain ⟨e0, h0⟩ := Option.ne_none_iff_exists'.1 (hfail 0 (by omega))
      obtain ⟨e1, h1⟩ := Option.ne_none_iff_exists'.1 (hfail 1 (by omega))
      refine ⟨?_, by decide, by decide⟩
      simp [navigate, hok, h0, h1, retryTrace]
  · intro e0 e1 e2 h0 h1 h2
    have hnav : navigate gotoError 3 0 [] = (.error e2, retryTrace 2) := by
      simp [navigate, h0, h1, h2, retryTrace]
    refine ⟨hnav, by decide, by decide, ?_⟩
    intro page o fuel hp
    unfold scrapeUserTweets
    rw [hp, hnav]

/-- C6, at a concrete page: two failed attempts and a third that succeeds give
a successful navigation with exactly two waits of 3000 ms. -/
theorem navigation_at_most_three_attempts_witness :
    navigate suspendedPage.gotoError 3 0 []
        = (.ok (), [Event.goto, Event.sleep 3000, Event.goto, Event.sleep 3000, Event.goto])
      ∧ countEvent (.sleep 3000) (retryTrace 2) = 2 :=
  ⟨((navigation_at_most_three_attempts suspendedPage.gotoError).2.1 2 (by decide)
      (by intro j hj; have : j = 0 ∨ j = 1 := by omega
          rcases this with rfl | rfl <;> simp [suspendedPage])
      (by simp [suspendedPage])).1,
   by decide⟩

/-- C1. With enough fuel for the loop (`maxScrolls` iterations suffice), the
call returns; it returns an array whenever navigation and the content gate
succeed; and every returned array is the accumulated sequence of the state in
which the loop stopped, cut to its first `maxTweets` records, so its length is
`min maxTweets n` and never more than `maxTweets`. -/
theorem scrape_returns_truncated_accumulation (page : Page) (o : Options) (fuel : Nat)
    (hfuel : o.maxScrolls ≤ fuel) :
    ∃ out, scrapeUserTweets page o fuel = some out
      ∧ (((navigate page.gotoError 3 0 []).1 = .ok ()
            ∧ (page.articleAppears = true ∨ page.tweetAppears = true)) →
          ∃ ts, out.result = .ok ts)
      ∧ (∀ ts, out.result = .ok ts →
          ∃ trace0 s, Reachable page o trace0 s ∧ loopCond o s = false
            ∧ out.trace = s.trace
            ∧ ts = s.acc.tweets.take o.maxTweets
            ∧ ts.length = min o.maxTweets s.acc.tweets.length
            ∧ ts.length ≤ o.maxTweets) := by
  obtain ⟨out, hout⟩ := scrape_total page o fuel hfuel
  refine ⟨out, hout, ?_, ?_⟩
  · rintro ⟨hnav, hgate⟩
    rcases scrape_cases page o fuel out hout with ⟨m, h1, _⟩ | ⟨tr, m, h1, h2, _⟩
      | ⟨tr, tr', s, _, _, _, h4, _⟩
    · rw [h1] at hnav
      exact absurd hnav (by simp)
    · have := (awaitContent_ok_iff page tr).2 hgate
      rw [h2] at this
      exact absurd this (by simp)
    · exact ⟨_, h4⟩
  · intro ts hts
    rcases scrape_cases page o fuel out hout with ⟨m, _, h2⟩ | ⟨tr, m, _, _, h3⟩
      | ⟨tr, tr', s, _, _, h3, h4, h5⟩
    · rw [h2] at hts
      exact absurd hts (by simp)
    · rw [h3] at hts
      exact absurd hts (by simp)
    · obtain ⟨hr, hc⟩ := paginate_reachable page o tr' fuel _ _ Reachable.init h3
      rw [h4] at hts
      simp only [Except.ok.injEq] at hts
      subst hts
      exact ⟨tr', s, hr, hc, h5, rfl, by simp [List.length_take],
        by simp [List.length_take]⟩

/-- C1, at a concrete page: five posts rendered at every pass, `maxTweets = 3`,
fuel 100. The call returns the first three records in first-seen order. -/
theorem scrape_returns_truncated_accumulation_witness :
    (100 ≤ 100)
      ∧ (∃ out, scrapeUserTweets fivePostsPage { maxTweets := 3 } 100 = some out
        ∧ (((navigate fivePostsPage.gotoError 3 0 []).1 = .ok ()
              ∧ (fivePostsPage.articleAppears = true ∨ fivePostsPage.tweetAppears = true)) →
            ∃ ts, out.result = .ok ts)
        ∧ (∀ ts, out.result = .ok ts →
            ∃ trace0 s, Reachable fivePostsPage { maxTweets := 3 } trace0 s
              ∧ loopCond { maxTweets := 3 } s = false
              ∧ out.trace = s.trace
              ∧ ts = s.acc.tweets.take 3
              ∧ ts.length = min 3 s.acc.tweets.length
              ∧ ts.length ≤ 3))
      ∧ (scrapeUserTweets fivePostsPage { maxTweets := 3 } 100).map
          (fun out => out.result.toOption.map (fun ts => ts.map (fun t => t.id)))
        = some (some ["1".toList, "2".toList, "3".toList]) :=
  ⟨by decide,
   scrape_returns_truncated_accumulation fivePostsPage { maxTweets := 3 } 100 (by decide),
   by decide⟩

/-- C3, as stated, fails: on a page that never renders a post the third
stalled pass sets `noNewTweetsCount` to 3 and the same iteration still issues a
scroll and its wait before the loop stops. -/
theorem scroll_after_stall_counter_reaches_three :
    loopCond tenTweets (stalledAfter 2) = true
      ∧ (extractAndMerge stalledPage tenTweets (stalledAfter 2)).noNewTweetsCount = 3
      ∧ (cycle stalledPage tenTweets (stalledAfter 2)).trace
        = (extractAndMerge stalledPage tenTweets (stalledAfter 2)).trace
          ++ [Event.scroll, Event.sleep 1000]
      ∧ (scrapeUserTweets stalledPage tenTweets 100).map (fun out => out.trace)
        = some [Event.goto, Event.waitForSelector Selector.article,
            Event.extract, Event.scroll, Event.sleep 1000,
            Event.extract, Event.scroll, Event.sleep 1000,
            Event.extract, Event.scroll, Event.sleep 1000] :=
  ⟨by decide, by decide, by decide, by decide⟩

/-- C3, amended. In every reachable state of the loop `noNewTweetsCount` is at
most 3, and once a state at the head of the loop has the value 3 the loop stops
there for any fuel, with no further extraction pass or scroll. An iteration
never shrinks the accumulator; it resets the counter to 0 when the accumulator
grows and adds one when it does not; it makes one extraction pass followed by
at most one scroll (the scroll of the iteration in which the counter reaches 3
is still issued); and after three consecutive iterations that add no record the
loop condition is false. -/
theorem stall_counter_stops_loop (page : Page) (o : Options) (trace0 : List Event)
    (s : LoopState) (h : Reachable page o trace0 s) :
    s.noNewTweetsCount ≤ 3
      ∧ (s.noNewTweetsCount = 3 → ∀ fuel, paginate page o fuel s = some s)
      ∧ s.acc.tweets.length ≤ (cycle page o s).acc.tweets.length
      ∧ ((cycle page o s).acc.tweets.length ≠ s.acc.tweets.length →
          (cycle page o s).noNewTweetsCount = 0)
      ∧ ((cycle page o s).acc.tweets.length = s.acc.tweets.length →
          (cycle page o s).noNewTweetsCount = s.noNewTweetsCount + 1)
      ∧ ((cycle page o s).trace = s.trace ++ [.extract]
          ∨ (cycle page o s).trace = s.trace ++ [.extract, .scroll, .sleep o.scrollDelay])
      ∧ ((cycle page o s).acc.tweets.length = s.acc.tweets.length →
          (cycle page o (cycle page o s)).acc.tweets.length = s.acc.tweets.length →
          (cycle page o (cycle page o (cycle page o s))).acc.tweets.length
            = s.acc.tweets.length →
          loopCond o (cycle page o (cycle page o (cycle page o s))) = false) := by
  have hacc : ∀ x : LoopState, (cycle page o x).acc = (extractAndMerge page o x).acc := by
    intro x
    rw [cycle, scrollStep_acc]
  refine ⟨(reachable_invariant page o trace0 s h).2.1, ?_, ?_, ?_, ?_, cycle_trace page o s, ?_⟩
  · intro h3 fuel
    apply paginate_of_not_cond
    simp [loopCond, h3]
  · rw [hacc]
    exact extractAndMerge_length_le page o s
  · intro hne
    rw [cycle_noNew, if_neg]
    rwa [hacc] at hne
  · intro he
    rw [cycle_noNew, if_pos]
    rwa [hacc] at he
  · intro h1 h2 h3
    have e1 : (cycle page o s).noNewTweetsCount = s.noNewTweetsCount + 1 := by
      rw [cycle_noNew, if_pos]
      rwa [hacc] at h1
    have e2 : (cycle page o (cycle page o s)).noNewTweetsCount
        = (cycle page o s).noNewTweetsCount + 1 := by
      rw [cycle_noNew, if_pos]
      rw [hacc] at h2
      rw [h2, h1]
    have e3 : (cycle page o (cycle page o (cycle page o s))).noNewTweetsCount
        = (cycle page o (cycle page o s)).noNewTweetsCount + 1 := by
      rw [cycle_noNew, if_pos]
      rw [hacc] at h3
      rw [h3, h2]
    cases hc : loopCond o (cycle page o (cycle page o (cycle page o s))) with
    | false => rfl
    | true =>
      have := ((loopCond_iff o _).1 hc).2.2
      omega

/-- C3 amended, at a concrete run: on the page that never renders a post the
state after three iterations is reachable, has `noNewTweetsCount = 3`, and the
loop stops there. -/
theorem stall_counter_stops_loop_witness :
    Reachable stalledPage tenTweets [] (stalledAfter 3)
      ∧ (stalledAfter 3).noNewTweetsCount = 3
      ∧ paginate stalledPage tenTweets 0 (stalledAfter 3) = some (stalledAfter 3) :=
  have hr : Reachable stalledPage tenTweets [] (stalledAfter 3) :=
    Reachable.step (Reachable.step (Reachable.step Reachable.init (by decide)) (by decide))
      (by decide)
  ⟨hr, by decide,
   (stall_counter_stops_loop stalledPage tenTweets [] (stalledAfter 3) hr).2.1 (by decide) 0⟩

/-- C4. In every reachable state at the head of the loop, and in the state
between the merge and the guarded scroll, `scrollCount` is at most
`maxScrolls`; `scrollCount` is the number of scrolls issued so far; an
iteration issues a scroll only when `scrollCount < maxScrolls` holds at that
moment; and the trace of any call holds at most `maxScrolls` scrolls. -/
theorem scroll_count_at_most_maxScrolls (page : Page) (o : Options) :
    (∀ trace0 s, Reachable page o trace0 s →
        s.scrollCount ≤ o.maxScrolls
          ∧ (extractAndMerge page o s).scrollCount ≤ o.maxScrolls
          ∧ countEvent .scroll s.trace = countEvent .scroll trace0 + s.scrollCount
          ∧ ((cycle page o s).trace ≠ (extractAndMerge page o s).trace →
              (extractAndMerge page o s).scrollCount < o.maxScrolls
                ∧ (cycle page o s).scrollCount = (extractAndMerge page o s).scrollCount + 1))
      ∧ (∀ fuel out, scrapeUserTweets page o fuel = some out →
          countEvent .scroll out.trace ≤ o.maxScrolls) := by
  constructor
  · intro trace0 s hr
    obtain ⟨i1, _, i3⟩ := reachable_invariant page o trace0 s hr
    refine ⟨i1, by rw [extractAndMerge_scrollCount]; exact i1, i3, ?_⟩
    intro hne
    rcases scrollStep_cases o (extractAndMerge page o s) with ⟨_, h2, h3, _⟩ | ⟨_, he⟩
    · exact ⟨h2, by rw [cycle, h3]⟩
    · exact absurd (by rw [cycle, he]) hne
  · intro fuel out hout
    have h0 : ∀ _ : List Event, countEvent .scroll (navigate page.gotoError 3 0 []).2 = 0 := by
      intro _
      rw [navigate_count_scroll]
      rfl
    rcases scrape_cases page o fuel out hout with ⟨m, h1, _⟩ | ⟨tr, m, h1, h2, _⟩
      | ⟨tr, tr', s, h1, h2, h3, _, h5⟩
    · have := h0 []
      rw [h1] at this
      simp only at this
      omega
    · have hn := h0 []
      rw [h1] at hn
      have ha := awaitContent_count_scroll page tr
      rw [h2] at ha
      simp only at hn ha
      omega
    · have hn := h0 []
      rw [h1] at hn
      have ha := awaitContent_count_scroll page tr
      rw [h2] at ha
      simp only at hn ha
      obtain ⟨hr, _⟩ := paginate_reachable page o tr' fuel _ _ Reachable.init h3
      obtain ⟨i1, _, i3⟩ := reachable_invariant page o tr' s hr
      rw [h5, i3]
      omega

/-- C4, at a concrete run: with `maxScrolls = 2` on the page that never
renders a post the call issues exactly two scrolls. -/
theorem scroll_count_at_most_maxScrolls_witness :
    (scrapeUserTweets stalledPage { maxScrolls := 2 } 2).map
        (fun out => countEvent .scroll out.trace) = some 2
      ∧ (∀ fuel out, scrapeUserTweets stalledPage { maxScrolls := 2 } fuel = some out →
          countEvent .scroll out.trace ≤ 2) :=
  ⟨by decide, (scroll_count_at_most_maxScrolls stalledPage { maxScrolls := 2 }).2⟩

/-- C7. After a successful navigation the call (with enough fuel) returns, and
it fails if and only if both selector waits time out; in that case the error is
the user-not-found error when the page content contains `This account doesn't
exist` or `Account suspended`, and the structure-changed error otherwise; the
two errors are different. -/
theorem content_gate_failure_classification (page : Page) (o : Options) (fuel : Nat)
    (hnav : (navigate page.gotoError 3 0 []).1 = .ok ()) (hfuel : o.maxScrolls ≤ fuel) :
    ∃ out, scrapeUserTweets page o fuel = some out
      ∧ ((∃ m, out.result = .error m)
          ↔ (page.articleAppears = false ∧ page.tweetAppears = false))
      ∧ (page.articleAppears = false → page.tweetAppears = false →
          (includes page.content "This account doesn't exist".toList = true
              ∨ includes page.content "Account suspended".toList = true) →
          out.result = .error (wrapError userNotFoundMessage))
      ∧ (page.articleAppears = false → page.tweetAppears = false →
          ¬ (includes page.content "This account doesn't exist".toList = true
              ∨ includes page.content "Account suspended".toList = true) →
          out.result = .error (wrapError structureChangedMessage))
      ∧ wrapError userNotFoundMessage ≠ wrapError structureChangedMessage := by
  obtain ⟨out, hout⟩ := scrape_total page o fuel hfuel
  refine ⟨out, hout, ?_, ?_, ?_, by decide⟩
  · rcases scrape_cases page o fuel out hout with ⟨m, h1, _⟩ | ⟨tr, m, _, h2, h3⟩
      | ⟨tr, tr', s, _, h2, _, h4, _⟩
    · rw [h1] at hnav
      exact absurd hnav (by simp)
    · have hno : ¬ (page.articleAppears = true ∨ page.tweetAppears = true) := by
        intro hh
        have := (awaitContent_ok_iff page tr).2 hh
        rw [h2] at this
        exact absurd this (by simp)
      constructor
      · intro _
        cases ha : page.articleAppears <;> cases ht : page.tweetAppears <;> simp_all
      · intro _
        exact ⟨_, h3⟩
    · have hyes : page.articleAppears = true ∨ page.tweetAppears = true := by
        apply (awaitContent_ok_iff page tr).1
        rw [h2]
      constructor
      · rintro ⟨m, hm⟩
        rw [h4] at hm
        exact absurd hm (by simp)
      · rintro ⟨ha, ht⟩
        rw [ha, ht] at hyes
        simp at hyes
  · intro ha ht hinc
    rcases scrape_cases page o fuel out hout with ⟨m, h1, _⟩ | ⟨tr, m, _, h2, h3⟩
      | ⟨tr, tr', s, _, h2, _, _, _⟩
    · rw [h1] at hnav
      exact absurd hnav (by simp)
    · have hb : (includes page.content "This account doesn't exist".toList
          || includes page.content "Account suspended".toList) = true := by
        simpa using hinc
      simp only [awaitContent, ha, ht, Bool.false_eq_true, if_false, hb, if_true,
        Prod.mk.injEq, Except.error.injEq] at h2
      rw [h3, ← h2.1]
    · have := (awaitContent_ok_iff page tr).1 (by rw [h2])
      rw [ha, ht] at this
      simp at this
  · intro ha ht hinc
    rcases scrape_cases page o fuel out hout with ⟨m, h1, _⟩ | ⟨tr, m, _, h2, h3⟩
      | ⟨tr, tr', s, _, h2, _, _, _⟩
    · rw [h1] at hnav
      exact absurd hnav (by simp)
    · have hb : ¬ ((includes page.content "This account doesn't exist".toList
          || includes page.content "Account suspended".toList) = true) := by
        simpa using hinc
      simp only [awaitContent, ha, ht, Bool.false_eq_true, if_false, hb,
        Prod.mk.injEq, Except.error.injEq] at h2
      rw [h3, ← h2.1]
    · have := (awaitContent_ok_iff page tr).1 (by rw [h2])
      rw [ha, ht] at this
      simp at this

/-- C7, at a concrete page: the content reads `Account suspended`, no post
element ever appears, navigation succeeds at its third attempt; the call fails
with the user-not-found error. -/
theorem content_gate_failure_classification_witness :
    (navigate suspendedPage.gotoError 3 0 []).1 = .ok ()
      ∧ (∃ out, scrapeUserTweets suspendedPage {} 100 = some out
        ∧ out.result = .error (wrapError userNotFoundMessage)) :=
  ⟨rfl,
   match content_gate_failure_classification suspendedPage {} 100 rfl (by decide) with
   | ⟨out, h1, _, h3, _⟩ => ⟨out, h1, h3 (by decide) (by decide) (Or.inr (by decide))⟩⟩

/-! ## Binary64 rounding: proofs -/

theorem unitScale_pos : 0 < unitScale := Nat.pos_pow_of_pos _ (by decide)

theorem floorLog2Aux_eq_log (fuel : Nat) : ∀ n, n ≤ fuel → floorLog2Aux fuel n = Nat.log 2 n := by
  induction fuel with
  | zero =>
    intro n hn
    have : n = 0 := by omega
    subst this
    simp [floorLog2Aux]
  | succ f ih =>
    intro n hn
    unfold floorLog2Aux
    by_cases h : n < 2
    · simp [h, Nat.log_of_lt h]
    · simp only [h, if_false]
      rw [ih (n / 2) (by omega), @Nat.log_of_one_lt_of_le 2 n (by decide) (by omega)]

theorem floorLog2_eq_log (n : Nat) : floorLog2 n = Nat.log 2 n :=
  floorLog2Aux_eq_log n n (Nat.le_refl n)

theorem floorLog2_eq_of_bounds (n k : Nat) (h1 : 2 ^ k ≤ n) (h2 : n < 2 ^ (k + 1)) :
    floorLog2 n = k := by
  rw [floorLog2_eq_log]
  have hn : n ≠ 0 := by
    have : 0 < 2 ^ k := Nat.pos_pow_of_pos _ (by decide)
    omega
  exact (Nat.log_eq_iff (Or.inr ⟨by decide, hn⟩)).2 ⟨h1, h2⟩

theorem floorLog2_bounds (n : Nat) (hn : n ≠ 0) :
    2 ^ floorLog2 n ≤ n ∧ n < 2 ^ (floorLog2 n + 1) := by
  rw [floorLog2_eq_log]
  exact ⟨Nat.pow_log_le_self 2 hn, Nat.lt_pow_succ_log_self (by decide) n⟩

theorem roundHalfEven_mul (m b : Nat) (hb : 0 < b) : roundHalfEven (m * b) b = m := by
  unfold roundHalfEven
  simp [Nat.mul_div_cancel _ hb, hb]

theorem roundHalfEven_bounds (a b : Nat) :
    a / b ≤ roundHalfEven a b ∧ roundHalfEven a b ≤ a / b + 1 := by
  unfold roundHalfEven
  dsimp only
  split
  · omega
  · split
    · omega
    · split <;> omega

theorem representable_round (a b s : Nat) (hs : s = ulpShift (a / b)) :
    Representable (roundHalfEven a (b * 2 ^ s) * 2 ^ s) := by
  obtain ⟨lo, hi⟩ := roundHalfEven_bounds a (b * 2 ^ s)
  rw [← Nat.div_div_eq_div_mul] at lo hi
  unfold ulpShift at hs
  by_cases ht : a / b < 2 ^ 53
  · rw [if_pos ht] at hs
    subst hs
    simp only [pow_zero, mul_one, Nat.div_one] at lo hi ⊢
    by_cases hlt : roundHalfEven a b < 2 ^ 53
    · exact Or.inl hlt
    · have he : roundHalfEven a b = 2 ^ 53 := by omega
      right
      rw [he, floorLog2_eq_of_bounds (2 ^ 53) 53 (Nat.le_refl _) (by norm_num)]
      norm_num
  · rw [if_neg ht] at hs
    have ht' : 2 ^ 53 ≤ a / b := by omega
    have hne : a / b ≠ 0 := by
      have : 0 < 2 ^ 53 := by norm_num
      omega
    obtain ⟨b1, b2⟩ := floorLog2_bounds (a / b) hne
    have hL : 53 ≤ floorLog2 (a / b) := by
      by_contra hcon
      have : floorLog2 (a / b) + 1 ≤ 53 := by omega
      have : 2 ^ (floorLog2 (a / b) + 1) ≤ 2 ^ 53 := Nat.pow_le_pow_right (by decide) this
      omega
    have hLs : floorLog2 (a / b) = s + 52 := by omega
    rw [hLs] at b1 b2
    have hpos : 0 < 2 ^ s := Nat.pos_pow_of_pos _ (by decide)
    have q1 : 2 ^ 52 ≤ a / b / 2 ^ s := by
      rw [Nat.le_div_iff_mul_le hpos, ← pow_add]
      rwa [Nat.add_comm] at b1
    have q2 : a / b / 2 ^ s < 2 ^ 53 := by
      rw [Nat.div_lt_iff_lt_mul hpos, ← pow_add]
      have : s + 52 + 1 = 53 + s := by omega
      rwa [this] at b2
    right
    by_cases hr : roundHalfEven a (b * 2 ^ s) < 2 ^ 53
    · have hfl : floorLog2 (roundHalfEven a (b * 2 ^ s) * 2 ^ s) = 52 + s := by
        apply floorLog2_eq_of_bounds
        · rw [pow_add]
          exact Nat.mul_le_mul_right _ (by omega)
        · have : 52 + s + 1 = 53 + s := by omega
          rw [this, pow_add]
          exact Nat.mul_lt_mul_of_pos_right hr hpos
      rw [hfl]
      have : 52 + s - 52 = s := by omega
      rw [this]
      exact Dvd.intro_left _ rfl
    · have he : roundHalfEven a (b * 2 ^ s) = 2 ^ 53 := by omega
      rw [he, ← pow_add, floorLog2_eq_of_bounds (2 ^ (53 + s)) (53 + s) (Nat.le_refl _)
        (Nat.pow_lt_pow_right (by decide) (by omega))]
      exact Nat.pow_dvd_pow 2 (by omega)

theorem roundToDouble_representable (num den n : Nat)
    (h : roundToDouble num den = .finite n) :
    Representable n ∧ n < 2 ^ 1024 * unitScale := by
  unfold roundToDouble at h
  dsimp only at h
  split at h
  · rename_i hlt
    simp only [JSNumber.finite.injEq] at h
    subst h
    exact ⟨representable_round _ _ _ rfl, hlt⟩
  · exact absurd h (by simp)

theorem roundToDouble_of_representable (n : Nat) (hr : Representable n)
    (hlt : n < 2 ^ 1024 * unitScale) :
    roundToDouble (n * unitScale) (unitScale * unitScale) = .finite n := by
  have hS := unitScale_pos
  have hSS : 0 < unitScale * unitScale := Nat.mul_pos hS hS
  unfold roundToDouble
  dsimp only
  have hdiv : n * unitScale * unitScale / (unitScale * unitScale) = n := by
    rw [Nat.mul_assoc, Nat.mul_div_cancel _ hSS]
  rw [hdiv]
  have hval : roundHalfEven (n * unitScale * unitScale) (unitScale * unitScale * 2 ^ ulpShift n)
      * 2 ^ ulpShift n = n := by
    unfold ulpShift
    by_cases h53 : n < 2 ^ 53
    · rw [if_pos h53]
      simp only [pow_zero, mul_one]
      rw [Nat.mul_assoc, roundHalfEven_mul _ _ hSS]
    · rw [if_neg h53]
      rcases hr with h | ⟨m, hm⟩
      · exact absurd h h53
      · have hpos : 0 < 2 ^ (floorLog2 n - 52) := Nat.pos_pow_of_pos _ (by decide)
        have e : n * unitScale * unitScale
            = m * (unitScale * unitScale * 2 ^ (floorLog2 n - 52)) := by
          conv_lhs => rw [hm]
          ring
        rw [e, roundHalfEven_mul _ _ (Nat.mul_pos hSS hpos)]
        conv_rhs => rw [hm]
        ring
  rw [hval, if_pos hlt]

theorem mul_finite (a b : Nat) :
    JSNumber.mul (.finite a) (.finite b) = roundToDouble (a * b) (unitScale * unitScale) := by
  cases a <;> cases b <;> simp only [JSNumber.mul]

theorem mul_one_of_rounded (num den : Nat) :
    (roundToDouble num den).mul (JSNumber.ofNat 1) = roundToDouble num den := by
  cases h : roundToDouble num den with
  | nan => rfl
  | infinity =>
    unfold JSNumber.ofNat
    have : 1 * unitScale ≠ 0 := by
      have := unitScale_pos
      omega
    cases hh : 1 * unitScale with
    | zero => exact absurd hh this
    | succ k => rfl
  | finite n =>
    obtain ⟨hr, hlt⟩ := roundToDouble_representable num den n h
    show JSNumber.mul (.finite n) (.finite (1 * unitScale)) = .finite n
    rw [mul_finite, Nat.one_mul]
    exact roundToDouble_of_representable n hr hlt



/-! ## Characters and strings: proofs -/

theorem isCountChar_of_isDigit (c : Char) (h : isDigit c = true) : isCountChar c = true := by
  simp [isCountChar, h]

theorem toLower_of_isDigit (c : Char) (h : isDigit c = true) : c.toLower = c := by
  simp only [isDigit, Bool.and_eq_true, decide_eq_true_eq] at h
  unfold Char.toLower
  simp only
  rw [if_neg]
  omega

theorem includes_singleton (c : Char) (s : Str) : includes s [c] = true ↔ c ∈ s := by
  induction s with
  | nil => simp [includes]
  | cons x xs ih =>
    simp only [includes, List.isPrefixOf, Bool.or_eq_true, ih, List.mem_cons, Bool.and_eq_true,
      beq_iff_eq]
    simp


/-! ## The two count parsers on a well-formed count text: proofs -/

theorem mem_num_countChar (num ip fp : Str) (hnum : removeCommas num = ip ++ fp)
    (hall : ∀ c ∈ ip ++ fp, isDigit c = true ∨ c = '.') :
    ∀ c ∈ num, isCountChar c = true := by
  intro c hc
  by_cases hcomma : c = ','
  · subst hcomma
    decide
  · have : c ∈ removeCommas num := by
      simp [removeCommas, List.mem_filter, hc, hcomma]
    rw [hnum] at this
    rcases hall c this with h | h
    · exact isCountChar_of_isDigit c h
    · subst h
      decide

theorem toLowerCase_digits_dots (l : Str) (hall : ∀ c ∈ l, isDigit c = true ∨ c = '.') :
    toLowerCase l = l := by
  induction l with
  | nil => rfl
  | cons c cs ih =>
    have hc : lowerChar c = [c] := by
      rcases hall c (List.mem_cons_self _ _) with h | h
      · have hl := toLower_of_isDigit c h
        simp only [isDigit, Bool.and_eq_true, decide_eq_true_eq] at h
        unfold lowerChar
        rw [if_neg (by omega), if_neg (by omega), hl]
      · subst h
        decide
    have ih' := ih (fun x hx => hall x (List.mem_cons_of_mem _ hx))
    unfold toLowerCase at ih' ⊢
    rw [List.flatMap_cons, hc, ih']
    rfl

theorem not_mem_digits_dots (l : Str) (hall : ∀ c ∈ l, isDigit c = true ∨ c = '.') (x : Char)
    (hx : isDigit x = false) (hx' : x ≠ '.') : x ∉ l := by
  intro hm
  rcases hall x hm with h | h
  · rw [h] at hx
    exact absurd hx (by simp)
  · exact hx' h

theorem takeWhile_stop {p : Char → Bool} (l tail : Str) (hl : ∀ c ∈ l, p c = true)
    (ht : tail = [] ∨ ∃ c w, tail = c :: w ∧ p c = false) :
    (l ++ tail).takeWhile p = l ∧ (l ++ tail).dropWhile p = tail := by
  rw [List.takeWhile_append_of_pos hl, List.dropWhile_append_of_pos hl]
  rcases ht with rfl | ⟨c, w, rfl, hc⟩
  · simp
  · simp [List.takeWhile_cons, List.dropWhile_cons, hc]

theorem parseFloat_mul_one (s : Str) :
    (parseFloat s).mul (JSNumber.ofNat 1) = parseFloat s := by
  unfold parseFloat
  dsimp only
  split
  · split
    · simp only [JSNumber.mul]
    · exact mul_one_of_rounded _ _
  · split
    · simp only [JSNumber.mul]
    · exact mul_one_of_rounded _ _

theorem matchNumber_shape (ip fp tail : Str) (hipd : ∀ c ∈ ip, isDigit c = true)
    (hfp : fp = [] ∨ ∃ fd, fp = '.' :: fd ∧ fd ≠ [] ∧ ∀ c ∈ fd, isDigit c = true)
    (htail : tail = [] ∨ ∃ c w, tail = c :: w ∧ isDigit c = false ∧ c ≠ '.') :
    matchNumber (ip ++ fp ++ tail) = (ip ++ fp, tail) := by
  rcases hfp with rfl | ⟨fd, rfl, hfd, hfdd⟩
  · have hstop : tail = [] ∨ ∃ c w, tail = c :: w ∧ isDigit c = false := by
      rcases htail with h | ⟨c, w, h1, h2, _⟩
      · exact Or.inl h
      · exact Or.inr ⟨c, w, h1, h2⟩
    obtain ⟨h1, h2⟩ := takeWhile_stop ip tail hipd hstop
    simp only [List.append_nil]
    unfold matchNumber
    simp only [h1, h2]
    rcases htail with rfl | ⟨c, w, rfl, _, hc⟩
    · rfl
    · split
      · rename_i r heq
        simp only [List.cons.injEq] at heq
        exact absurd heq.1 hc
      · rfl
  · have hstop : ('.' :: fd ++ tail) = [] ∨ ∃ c w, ('.' :: fd ++ tail) = c :: w
        ∧ isDigit c = false :=
      Or.inr ⟨'.', fd ++ tail, rfl, by decide⟩
    obtain ⟨h1, h2⟩ := takeWhile_stop ip ('.' :: fd ++ tail) hipd hstop
    have hstop' : tail = [] ∨ ∃ c w, tail = c :: w ∧ isDigit c = false := by
      rcases htail with h | ⟨c, w, h1, h2, _⟩
      · exact Or.inl h
      · exact Or.inr ⟨c, w, h1, h2⟩
    obtain ⟨h3, h4⟩ := takeWhile_stop fd tail hfdd hstop'
    have hne : fd.isEmpty = false := by
      cases fd with
      | nil => exact absurd rfl hfd
      | cons _ _ => rfl
    unfold matchNumber
    simp only [List.append_assoc, List.cons_append] at h1 h2 ⊢
    simp only [h1, h2, h3, h4, hne, Bool.false_eq_true, if_false]

theorem matchSuffix_shape (suffix rest : Str)
    (hsuf : suffix = [] ∨ suffix = ['K'] ∨ suffix = ['k'] ∨ suffix = ['M'] ∨ suffix = ['m'])
    (hrest : rest = [] ∨ ∃ c w, rest = ' ' :: c :: w ∧ isJsSpace c = false ∧ c ≠ ','
      ∧ c ≠ 'K' ∧ c ≠ 'k' ∧ c ≠ 'M' ∧ c ≠ 'm') :
    matchSuffix (suffix ++ removeCommas rest) = suffix := by
  rcases hsuf with rfl | rfl | rfl | rfl | rfl
  · rcases hrest with rfl | ⟨c, w, rfl, hc, hcomma, h1, h2, h3, h4⟩
    · rfl
    · have hsp : isJsSpace ' ' = true := by decide
      simp [matchSuffix, removeCommas, List.filter_cons, hcomma, List.dropWhile_cons, hsp, hc,
        h1, h2, h3, h4]
  · have hsp : isJsSpace 'K' = false := by decide
    simp [matchSuffix, List.dropWhile_cons, hsp]
  · have hsp : isJsSpace 'k' = false := by decide
    simp [matchSuffix, List.dropWhile_cons, hsp]
  · have hsp : isJsSpace 'M' = false := by decide
    simp [matchSuffix, List.dropWhile_cons, hsp]
  · have hsp : isJsSpace 'm' = false := by decide
    simp [matchSuffix, List.dropWhile_cons, hsp]

theorem countText_digits_dots (num suffix rest ip fp : Str)
    (h : CountText num suffix rest ip fp) : ∀ c ∈ ip ++ fp, isDigit c = true ∨ c = '.' := by
  obtain ⟨_, _, hipd, hfp, _, _⟩ := h
  intro c hc
  rcases List.mem_append.1 hc with h1 | h1
  · exact Or.inl (hipd c h1)
  · rcases hfp with rfl | ⟨fd, rfl, _, hfdd⟩
    · exact absurd h1 (by simp)
    · rcases List.mem_cons.1 h1 with h2 | h2
      · exact Or.inr h2
      · exact Or.inl (hfdd c h2)

theorem statMatch_of_head_digit (s : Str) (d : Char) (x : Str) (hs : s = d :: x)
    (hd : isDigit d = true) :
    statMatch s
      = some { number := (matchNumber s).1, suffix := matchSuffix (matchNumber s).2 } := by
  subst hs
  simp [statMatch, List.dropWhile_cons, hd]

theorem removeCommas_suffix (suffix : Str)
    (hsuf : suffix = [] ∨ suffix = ['K'] ∨ suffix = ['k'] ∨ suffix = ['M'] ∨ suffix = ['m']) :
    removeCommas suffix = suffix := by
  rcases hsuf with rfl | rfl | rfl | rfl | rfl <;> decide

theorem parseStatValue_countText (num suffix rest ip fp : Str)
    (h : CountText num suffix rest ip fp) :
    parseStatValue (some (num ++ suffix ++ rest))
      = (if suffix = ['K'] ∨ suffix = ['k'] then
          (parseFloat (ip ++ fp)).mul (JSNumber.ofNat 1000)
        else if suffix = ['M'] ∨ suffix = ['m'] then
          (parseFloat (ip ++ fp)).mul (JSNumber.ofNat 1000000)
        else parseFloat (ip ++ fp)).floor := by
  obtain ⟨hnum, hip, hipd, hfp, hsuf, hrest⟩ := h
  have hrc : removeCommas (num ++ suffix ++ rest) = ip ++ fp ++ (suffix ++ removeCommas rest) := by
    have h1 : removeCommas (num ++ suffix ++ rest)
        = removeCommas num ++ removeCommas suffix ++ removeCommas rest := by
      simp [removeCommas, List.filter_append]
    rw [h1, hnum, removeCommas_suffix suffix hsuf, List.append_assoc (ip ++ fp)]
  obtain ⟨d, ip', hd⟩ : ∃ d ip', ip = d :: ip' := by
    cases ip with
    | nil => exact absurd rfl hip
    | cons d ip' => exact ⟨d, ip', rfl⟩
  have hdd : isDigit d = true := hipd d (by rw [hd]; exact List.mem_cons_self _ _)
  have hhead : ip ++ fp ++ (suffix ++ removeCommas rest)
      = d :: (ip' ++ fp ++ (suffix ++ removeCommas rest)) := by
    rw [hd]; simp
  have htext : (match (some (num ++ suffix ++ rest)).map removeCommas with
      | some (c :: cs) => c :: cs
      | _ => ['0']) = ip ++ fp ++ (suffix ++ removeCommas rest) := by
    rw [Option.map_some', hrc, hhead]
  have htail : (suffix ++ removeCommas rest) = []
      ∨ ∃ c w, (suffix ++ removeCommas rest) = c :: w ∧ isDigit c = false ∧ c ≠ '.' := by
    rcases hsuf with rfl | rfl | rfl | rfl | rfl
    · rcases hrest with rfl | ⟨c, w, rfl, _⟩
      · exact Or.inl rfl
      · exact Or.inr ⟨' ', removeCommas (c :: w), by simp [removeCommas, List.filter_cons],
          by decide, by decide⟩
    · exact Or.inr ⟨'K', removeCommas rest, rfl, by decide, by decide⟩
    · exact Or.inr ⟨'k', removeCommas rest, rfl, by decide, by decide⟩
    · exact Or.inr ⟨'M', removeCommas rest, rfl, by decide, by decide⟩
    · exact Or.inr ⟨'m', removeCommas rest, rfl, by decide, by decide⟩
  have hmatch : statMatch (ip ++ fp ++ (suffix ++ removeCommas rest))
      = some { number := ip ++ fp, suffix := suffix } := by
    rw [statMatch_of_head_digit _ d _ hhead hdd, matchNumber_shape ip fp _ hipd hfp htail,
      matchSuffix_shape suffix rest hsuf hrest]
  unfold parseStatValue
  simp only [htext, hmatch]
  have eK : toLowerCase ['K'] = ['k'] := by decide
  have ek : toLowerCase ['k'] = ['k'] := by decide
  have eM : toLowerCase ['M'] = ['m'] := by decide
  have em : toLowerCase ['m'] = ['m'] := by decide
  have e0 : toLowerCase ([] : Str) = [] := rfl
  rcases hsuf with rfl | rfl | rfl | rfl | rfl
  · simp [e0]
  · simp [eK]
  · simp [ek]
  · simp [eM]
  · simp [em]

theorem countMatch_countText (num suffix rest ip fp : Str)
    (h : CountText num suffix rest ip fp) :
    countMatch (num ++ suffix ++ rest) = some (num ++ suffix) := by
  have hdd := countText_digits_dots num suffix rest ip fp h
  obtain ⟨hnum, hip, hipd, hfp, hsuf, hrest⟩ := h
  have hnumc := mem_num_countChar num ip fp hnum hdd
  have hall : ∀ c ∈ num ++ suffix, isCountChar c = true := by
    intro c hc
    rcases List.mem_append.1 hc with h1 | h1
    · exact hnumc c h1
    · rcases hsuf with rfl | rfl | rfl | rfl | rfl
      · exact absurd h1 (by simp)
      all_goals
        simp only [List.mem_singleton] at h1
        subst h1
        decide
  have hstop : rest = [] ∨ ∃ c w, rest = c :: w ∧ isCountChar c = false := by
    rcases hrest with h1 | ⟨c, w, h1, _⟩
    · exact Or.inl h1
    · exact Or.inr ⟨' ', c :: w, h1, by decide⟩
  obtain ⟨h1, _⟩ := takeWhile_stop (num ++ suffix) rest hall hstop
  obtain ⟨x, num', hx⟩ : ∃ x num', num = x :: num' := by
    cases hn : num with
    | nil =>
      rw [hn] at hnum
      have : ip ++ fp = [] := by rw [← hnum]; rfl
      exact absurd (List.append_eq_nil.1 this).1 hip
    | cons x num' => exact ⟨x, num', rfl⟩
  have hxc : isCountChar x = true := hnumc x (by rw [hx]; exact List.mem_cons_self _ _)
  have hhead : num ++ suffix ++ rest = x :: (num' ++ suffix ++ rest) := by
    rw [hx]; simp
  unfold countMatch
  have hdrop : (num ++ suffix ++ rest).dropWhile (fun c => !isCountChar c)
      = x :: (num' ++ suffix ++ rest) := by
    rw [hhead]
    simp [List.dropWhile_cons, hxc]
  rw [hdrop]
  show some (List.takeWhile isCountChar (x :: (num' ++ suffix ++ rest))) = some (num ++ suffix)
  rw [← hhead, h1]

theorem parseFollowCount_countText (num suffix rest ip fp : Str)
    (h : CountText num suffix rest ip fp) :
    parseFollowCount (num ++ suffix ++ rest)
      = some ((parseFloat (ip ++ fp)).mul
          (if suffix = ['K'] ∨ suffix = ['k'] then JSNumber.ofNat 1000
            else if suffix = ['M'] ∨ suffix = ['m'] then JSNumber.ofNat 1000000
            else JSNumber.ofNat 1)).floor := by
  have hdd := countText_digits_dots num suffix rest ip fp h
  have hcm := countMatch_countText num suffix rest ip fp h
  obtain ⟨hnum, hip, hipd, hfp, hsuf, hrest⟩ := h
  have hcount : toLowerCase (removeCommas (num ++ suffix)) = ip ++ fp ++ toLowerCase suffix := by
    have h1 : removeCommas (num ++ suffix) = removeCommas num ++ removeCommas suffix := by
      simp [removeCommas, List.filter_append]
    rw [h1, hnum, removeCommas_suffix suffix hsuf]
    have h2 : toLowerCase (ip ++ fp ++ suffix)
        = toLowerCase (ip ++ fp) ++ toLowerCase suffix := by
      simp [toLowerCase]
    rw [h2, toLowerCase_digits_dots _ hdd]
  have hk : 'k' ∉ ip ++ fp := not_mem_digits_dots _ hdd 'k' (by decide) (by decide)
  have hm : 'm' ∉ ip ++ fp := not_mem_digits_dots _ hdd 'm' (by decide) (by decide)
  have incK : ∀ l : Str, includes l ['k'] = decide ('k' ∈ l) := by
    intro l
    rw [Bool.eq_iff_iff, includes_singleton]
    simp
  have incM : ∀ l : Str, includes l ['m'] = decide ('m' ∈ l) := by
    intro l
    rw [Bool.eq_iff_iff, includes_singleton]
    simp
  have eK : toLowerCase ['K'] = ['k'] := by decide
  have ek : toLowerCase ['k'] = ['k'] := by decide
  have eM : toLowerCase ['M'] = ['m'] := by decide
  have em : toLowerCase ['m'] = ['m'] := by decide
  have e0 : toLowerCase ([] : Str) = [] := rfl
  have eraseK : removeFirst 'k' (ip ++ fp ++ ['k']) = ip ++ fp := by
    unfold removeFirst
    rw [List.erase_append_right _ hk]
    simp
  have eraseM : removeFirst 'm' (ip ++ fp ++ ['m']) = ip ++ fp := by
    unfold removeFirst
    rw [List.erase_append_right _ hm]
    simp
  have hk' : ¬ ('k' ∈ ip ∨ 'k' ∈ fp) := fun hh => hk (List.mem_append.2 hh)
  unfold parseFollowCount
  rw [hcm]
  simp only [hcount]
  rcases hsuf with rfl | rfl | rfl | rfl | rfl
  · simp [e0, incK, incM, hk, hm]
  · simp only [eK, incK, eraseK]
    simp
  · simp only [ek, incK, eraseK]
    simp
  · simp only [eM, incK, incM, eraseM]
    simp [hk']
  · simp only [em, incK, incM, eraseM]
    simp [hk']

/-! ## The two count parsers: theorems -/

theorem roundToDouble_ne_nan (a b : Nat) : roundToDouble a b ≠ .nan := by
  unfold roundToDouble
  dsimp only
  split <;> simp

theorem parseFloat_ne_nan (s : Str) (h : (s.takeWhile isDigit).isEmpty = false) :
    parseFloat s ≠ .nan := by
  unfold parseFloat
  dsimp only
  split
  · simp only [h, Bool.false_and, Bool.false_eq_true, if_false]
    exact roundToDouble_ne_nan _ _
  · simp only [h, Bool.false_eq_true, if_false]
    exact roundToDouble_ne_nan _ _

theorem mul_ofNat_ne_nan (x : JSNumber) (k : Nat) (hk : k ≠ 0) (hx : x ≠ .nan) :
    x.mul (JSNumber.ofNat k) ≠ .nan := by
  have hpos : k * unitScale ≠ 0 := Nat.mul_ne_zero hk (Nat.pos_iff_ne_zero.1 unitScale_pos)
  cases x with
  | nan => exact absurd rfl hx
  | infinity =>
    unfold JSNumber.ofNat
    cases hh : k * unitScale with
    | zero => exact absurd hh hpos
    | succ j => simp only [JSNumber.mul]; simp
  | finite a =>
    unfold JSNumber.ofNat
    rw [mul_finite]
    exact roundToDouble_ne_nan _ _

theorem floor_isCount (x : JSNumber) (hx : x ≠ .nan) : IsCount x.floor := by
  cases x with
  | nan => exact absurd rfl hx
  | infinity => exact Or.inl (by simp only [JSNumber.floor])
  | finite n => exact Or.inr ⟨n / unitScale, by simp only [JSNumber.floor, JSNumber.ofNat]⟩

theorem parseStatValue_isCount_countText (num suffix rest ip fp : Str)
    (h : CountText num suffix rest ip fp) :
    IsCount (parseStatValue (some (num ++ suffix ++ rest))) := by
  rw [parseStatValue_countText num suffix rest ip fp h]
  obtain ⟨_, hip, hipd, hfp, _, _⟩ := h
  have htw : ((ip ++ fp).takeWhile isDigit).isEmpty = false := by
    have hstop : fp = [] ∨ ∃ c w, fp = c :: w ∧ isDigit c = false := by
      rcases hfp with h1 | ⟨fd, h1, _⟩
      · exact Or.inl h1
      · exact Or.inr ⟨'.', fd, h1, by decide⟩
    rw [(takeWhile_stop ip fp hipd hstop).1]
    cases ip with
    | nil => exact absurd rfl hip
    | cons _ _ => rfl
  have hpf := parseFloat_ne_nan (ip ++ fp) htw
  apply floor_isCount
  split
  · exact mul_ofNat_ne_nan _ _ (by decide) hpf
  · split
    · exact mul_ofNat_ne_nan _ _ (by decide) hpf
    · exact hpf

theorem parsers_without_countChar (text : Str) (h : ∀ c ∈ text, isCountChar c = false) :
    parseFollowCount text = none ∧ parseStatValue (some text) = JSNumber.ofNat 0 := by
  constructor
  · have hd : text.dropWhile (fun c => !isCountChar c) = [] := by
      rw [List.dropWhile_eq_nil_iff]
      intro c hc
      simp [h c hc]
    simp [parseFollowCount, countMatch, hd]
  · have hrc : removeCommas text = text := by
      unfold removeCommas
      rw [List.filter_eq_self]
      intro c hc
      have := h c hc
      simp only [bne_iff_ne, ne_eq]
      rintro rfl
      exact absurd this (by decide)
    cases text with
    | nil => decide
    | cons c cs =>
      have hd : (c :: cs).dropWhile (fun c => !isDigit c) = [] := by
        rw [List.dropWhile_eq_nil_iff]
        intro x hx
        have hx' := h x hx
        cases hdx : isDigit x with
        | false => rfl
        | true =>
          rw [isCountChar_of_isDigit x hdx] at hx'
          exact absurd hx' (by simp)
      unfold parseStatValue
      simp only [Option.map_some', hrc, statMatch, hd]

/-- The examples of the specification of the abbreviated numbers, on the
engagement parser. -/
theorem parseStatValue_examples :
    parseStatValue (some "12.3K".toList) = JSNumber.ofNat 12300
      ∧ parseStatValue (some "1,204".toList) = JSNumber.ofNat 1204
      ∧ parseStatValue (some "2M".toList) = JSNumber.ofNat 2000000
      ∧ parseStatValue (some "".toList) = JSNumber.ofNat 0
      ∧ parseStatValue (some "abc".toList) = JSNumber.ofNat 0 :=
  ⟨by decide, by decide, by decide, by decide, by decide⟩

/-- C5, at the failing input `4.1M` : the match is the number `4.1` with the
suffix `M`, and the value is `Math.floor(parseFloat("4.1") * 1000000)` computed
in binary64, which is 4099999 and not the floor 4100000 of the decimal value
4.1 times 1000000. -/
theorem stat_value_floors_binary64_product :
    statMatch "4.1M".toList = some { number := "4.1".toList, suffix := "M".toList }
      ∧ parseStatValue (some "4.1M".toList) = JSNumber.ofNat 4099999
      ∧ parseStatValue (some "4.1M".toList) ≠ JSNumber.ofNat (41 * 1000000 / 10) :=
  ⟨by decide, by decide, by decide⟩

/-- C9, as stated, fails: on the anchor text `12 mil seguidores` the count
stored by `scrapeUserProfile` is 12, and the engagement parser, which lets
white space come between the number and the suffix, returns 12000000. -/
theorem follow_count_differs_on_spaced_suffix :
    parseFollowCount "12 mil seguidores".toList = some (JSNumber.ofNat 12)
      ∧ parseStatValue (some "12 mil seguidores".toList) = JSNumber.ofNat 12000000
      ∧ (followCounts
          [{ innerText := some "12 mil seguidores".toList
             href := "https://x.com/alice/followers".toList }]).followers
        = JSNumber.ofNat 12 :=
  ⟨by decide, by decide, by decide⟩

/-- C9, amended. On a well-formed count text (a decimal number with optional
commas, an optional suffix K, k, M or m directly after it, then nothing or a
space and a word that does not start with white space, a comma or K, k, M, m)
the count that `scrapeUserProfile` computes and stores for a followers or
following anchor is the result of the engagement parser on that text, a
natural number or `+Infinity`; and on a text with no character of
`[\d.,KkMm]` nothing is stored, the count stays 0, which is also the result of
the engagement parser. -/
theorem follow_count_agrees_on_count_text (num suffix rest ip fp href : Str)
    (h : CountText num suffix rest ip fp) :
    parseFollowCount (num ++ suffix ++ rest)
        = some (parseStatValue (some (num ++ suffix ++ rest)))
      ∧ (includes href "/followers".toList = true →
          (followCounts [{ innerText := some (num ++ suffix ++ rest), href := href }]).followers
            = parseStatValue (some (num ++ suffix ++ rest)))
      ∧ (includes href "/followers".toList = false →
          includes href "/following".toList = true →
          (followCounts [{ innerText := some (num ++ suffix ++ rest), href := href }]).following
            = parseStatValue (some (num ++ suffix ++ rest)))
      ∧ IsCount (parseStatValue (some (num ++ suffix ++ rest)))
      ∧ (∀ text : Str, (∀ c ∈ text, isCountChar c = false) →
          parseFollowCount text = none
            ∧ parseStatValue (some text) = JSNumber.ofNat 0
            ∧ followCounts [{ innerText := some text, href := href }]
              = { followers := JSNumber.ofNat 0, following := JSNumber.ofNat 0 }) := by
  have hagree : parseFollowCount (num ++ suffix ++ rest)
      = some (parseStatValue (some (num ++ suffix ++ rest))) := by
    rw [parseFollowCount_countText num suffix rest ip fp h,
      parseStatValue_countText num suffix rest ip fp h]
    obtain ⟨_, _, _, _, hsuf, _⟩ := h
    rcases hsuf with rfl | rfl | rfl | rfl | rfl
    · simp [parseFloat_mul_one]
    all_goals simp
  refine ⟨hagree, ?_, ?_, parseStatValue_isCount_countText num suffix rest ip fp h, ?_⟩
  · intro hf
    simp only [followCounts, List.foldl_cons, List.foldl_nil, followStep, Option.getD_some,
      hagree, hf, if_true]
  · intro hf hg
    simp only [followCounts, List.foldl_cons, List.foldl_nil, followStep, Option.getD_some,
      hagree, hf, hg, if_true, Bool.false_eq_true, if_false]
  · intro text ht
    obtain ⟨h1, h2⟩ := parsers_without_countChar text ht
    exact ⟨h1, h2, by simp [followCounts, followStep, h1]⟩

/-- C9 amended, at the anchor text `1.2M Followers` : it is a well-formed count
text and the stored count is 1200000. -/
theorem follow_count_agrees_on_count_text_witness :
    CountText "1.2".toList "M".toList " Followers".toList "1".toList ".2".toList
      ∧ (followCounts
          [{ innerText := some ("1.2".toList ++ "M".toList ++ " Followers".toList)
             href := "https://x.com/alice/followers".toList }]).followers
        = parseStatValue (some ("1.2".toList ++ "M".toList ++ " Followers".toList))
      ∧ parseStatValue (some "1.2M Followers".toList) = JSNumber.ofNat 1200000
      ∧ parseFollowCount "1.2M Followers".toList = some (JSNumber.ofNat 1200000) :=
  have hct : CountText "1.2".toList "M".toList " Followers".toList "1".toList ".2".toList :=
    ⟨by decide, by decide, by decide, Or.inr ⟨"2".toList, by decide, by decide, by decide⟩,
      by decide,
      Or.inr ⟨'F', "ollowers".toList, by decide, by decide, by decide, by decide, by decide,
        by decide, by decide⟩⟩
  ⟨hct,
   (follow_count_agrees_on_count_text "1.2".toList "M".toList " Followers".toList "1".toList
      ".2".toList "https://x.com/alice/followers".toList hct).2.1 (by decide),
   by decide, by decide⟩

end XScraper
